import Mathlib

/-!
Verification of the KSADS positional document field extractor
(`pushcap/ksads_uploader.py`) and the surrounding `pull` batch logic
(`pushcap/redcap_uploader.py`).

The Python source is shallowly embedded: text fragments are `Item`s with
integer coordinates, pandas boolean index series over the field-template
catalog become predicates `TRow → Bool`, Python dictionaries (which preserve
insertion order) become association lists `RMap`, raised exceptions become
`Except` errors tagged by their Python exception class (so that the
`try/except ValueError/KeyError` in `pull` can be modelled faithfully:
`IndexError`/`TypeError`/`AttributeError` raises are *not* caught there).
The small regular expressions used by the source are compiled by hand into
character-list scanners with the exact same matching semantics on the
character sets involved (left-to-right scan, leftmost match, alternation
priority, greedy optional parts, word boundaries). Where the source
interpolates an extracted token (a time qualifier or remission phrase) into a
regex, the scanners treat the token as a literal, which agrees with the regex
for every token free of regex metacharacters (the case for all tokens these
documents produce).
-/

set_option maxRecDepth 10000

deriving instance DecidableEq for Except

abbrev Chars := List Char

/-- Lower-casing a character list (used for `re.IGNORECASE` / `case=False`). -/
def lcs (l : Chars) : Chars := l.map Char.toLower

/-- Python regex `\w` word characters (ASCII range, which covers all text here). -/
def isPyWordChar (c : Char) : Bool := c.isAlphanum || c = '_'

/-- Python regex `\s` whitespace characters. -/
def isPyWs (c : Char) : Bool :=
  c = ' ' || c = '\t' || c = '\n' || c = '\x0d' || c = '\x0c' || c = '\x0b'

/-- Substring containment test (`pat` occurs somewhere in `s`). -/
def containsSub (pat s : Chars) : Bool :=
  (List.range (s.length + 1)).any (fun i => pat.isPrefixOf (s.drop i))

/-- `pandas.Series.str.contains(pat, case, regex=False)` for one cell, and also
`regex=True` when `pat` has no regex metacharacters (as in the source). -/
def strContains (caseSens : Bool) (pat s : String) : Bool :=
  if caseSens then containsSub pat.data s.data
  else containsSub (lcs pat.data) (lcs s.data)

/-- Case-insensitive string equality (models `re` `fullmatch`/anchored match of a
literal pattern under `re.IGNORECASE`). -/
def eqCI (a b : String) : Bool := lcs a.data = lcs b.data

/-- `pandas.Series.str.contains("\b" ++ pat, case)` for one cell: `pat` occurs at a
position preceded by a regex word boundary. -/
def containsWordB (caseSens : Bool) (pat s : String) : Bool :=
  let p := if caseSens then pat.data else lcs pat.data
  let t := if caseSens then s.data else lcs s.data
  (List.range (t.length + 1)).any (fun i =>
    let left := if i = 0 then false else isPyWordChar (t.getD (i - 1) ' ')
    let right := isPyWordChar (t.getD i ' ')
    (left != right) && p.isPrefixOf (t.drop i))

/-- `re.search(r"(\bCurrent)|(\bPast)", s, re.IGNORECASE)`, returning `.group()`
(the matched slice of `s` with its original case). -/
def searchCurrentPast (s : String) : Option String :=
  let t := s.data
  ((List.range (t.length + 1)).filterMap (fun i =>
    let left := if i = 0 then false else isPyWordChar (t.getD (i - 1) ' ')
    if left then none
    else if (lcs "current".data).isPrefixOf (lcs (t.drop i)) then
      some (String.mk ((t.drop i).take 7))
    else if (lcs "past".data).isPrefixOf (lcs (t.drop i)) then
      some (String.mk ((t.drop i).take 4))
    else none)).head?

/-- Scanner for `findAllCurrentPast` (fuel-based structural recursion; every
step consumes at least one character, so fuel `length + 1` is always enough). -/
def findAllCPGo : Nat → Chars → Bool → List (String × String)
  | 0, _, _ => []
  | _ + 1, [], _ => []
  | fuel + 1, c :: rest, prevWord =>
    if !prevWord && (lcs "current".data).isPrefixOf (lcs (c :: rest)) then
      (String.mk ((c :: rest).take 7), "") :: findAllCPGo fuel (rest.drop 6) true
    else if !prevWord && (lcs "past".data).isPrefixOf (lcs (c :: rest)) then
      ("", String.mk ((c :: rest).take 4)) :: findAllCPGo fuel (rest.drop 3) true
    else
      findAllCPGo fuel rest (isPyWordChar c)

/-- `re.findall(r"(\bCurrent)|(\bPast)", s, re.IGNORECASE)`: the list of group
tuples of all non-overlapping matches, scanned left to right. -/
def findAllCurrentPast (s : String) : List (String × String) :=
  findAllCPGo (s.data.length + 1) s.data false

/-- Scanner for `re.sub(r"[,–-] ?present", ", Current", txt, flags=re.IGNORECASE)`. -/
def subPresent1Go : Nat → Chars → Chars
  | 0, l => l
  | _ + 1, [] => []
  | fuel + 1, c :: ' ' :: r2 =>
    if (c = ',' || c = '–' || c = '-') && (lcs "present".data).isPrefixOf (lcs r2) then
      ", Current".data ++ subPresent1Go fuel (r2.drop 7)
    else c :: subPresent1Go fuel (' ' :: r2)
  | fuel + 1, c :: rest =>
    if (c = ',' || c = '–' || c = '-') && (lcs "present".data).isPrefixOf (lcs rest) then
      ", Current".data ++ subPresent1Go fuel (rest.drop 7)
    else c :: subPresent1Go fuel rest

/-- `re.sub(r"[,–-] ?present", ", Current", txt, flags=re.IGNORECASE)`. -/
def subPresent1 (l : Chars) : Chars := subPresent1Go (l.length + 1) l

/-- Scanner for `re.sub(r"[)] present", "), Current", txt, flags=re.IGNORECASE)`. -/
def subPresent2Go : Nat → Chars → Chars
  | 0, l => l
  | _ + 1, [] => []
  | fuel + 1, ')' :: ' ' :: rest =>
    if (lcs "present".data).isPrefixOf (lcs rest) then
      "), Current".data ++ subPresent2Go fuel (rest.drop 7)
    else ')' :: subPresent2Go fuel (' ' :: rest)
  | fuel + 1, c :: rest => c :: subPresent2Go fuel rest

/-- `re.sub(r"[)] present", "), Current", txt, flags=re.IGNORECASE)`. -/
def subPresent2 (l : Chars) : Chars := subPresent2Go (l.length + 1) l

/-- `process_txt` from `parse_data`: normalizes "present" wording to ", Current",
replaces newlines by spaces, and substitutes the special characters
(the "fi" ligature and the typographic apostrophe). -/
def process_txt (txt : String) : String :=
  let t1 := subPresent1 txt.data
  let t2 := subPresent2 t1
  let t3 := t2.map (fun c => if c = '\n' then ' ' else c)
  let t4 := t3.flatMap (fun c => if c = 'ﬁ' then "fi".data else [c])
  let t5 := t4.map (fun c => if c = '’' then '\'' else c)
  String.mk t5

/-- `re.search(r"(full)|(partial) remission", s, re.IGNORECASE)`, returning
`.group()` (note the alternation binds as `full` OR `partial remission`). -/
def searchRemission (s : String) : Option String :=
  let t := s.data
  ((List.range (t.length + 1)).filterMap (fun i =>
    if (lcs "full".data).isPrefixOf (lcs (t.drop i)) then
      some (String.mk ((t.drop i).take 4))
    else if (lcs "partial remission".data).isPrefixOf (lcs (t.drop i)) then
      some (String.mk ((t.drop i).take 17))
    else none)).head?

/-- Scanner for the time/remission removal substitution. -/
def removeTRGo (time remission : Chars) : Nat → Chars → Chars
  | 0, l => l
  | _ + 1, [] => []
  | fuel + 1, c :: rest =>
    if c = '–' && time.isPrefixOf rest then
      removeTRGo time remission fuel (rest.drop time.length)
    else if time ≠ [] && time.isPrefixOf (c :: rest) then
      removeTRGo time remission fuel (rest.drop (time.length - 1))
    else if remission ≠ [] && remission.isPrefixOf (c :: rest) then
      removeTRGo time remission fuel (rest.drop (remission.length - 1))
    else c :: removeTRGo time remission fuel rest

/-- `re.sub(r"(–?" ++ time ++ ")|(" ++ remission ++ ")", "", s)` (case-sensitive;
zero-length matches leave the text unchanged, exactly as in `re.sub`). -/
def removeTimeRemission (time remission : Chars) (l : Chars) : Chars :=
  removeTRGo time remission (l.length + 1) l

/-- The negative-lookahead body `[^()]*\)` of the diagnosis tokenizing split:
from this position, a `)` is reachable before any parenthesis character. -/
def lookCloseParen : Chars → Bool
  | [] => false
  | '(' :: _ => false
  | ')' :: _ => true
  | _ :: r => lookCloseParen r

/-- Length of the leading whitespace run. -/
def wsCount (l : Chars) : Nat := (l.takeWhile isPyWs).length

/-- Scanner for `re.split(r",|\(|\)\s*(?![^()]*\))", s)`: split on `,`, `(`, or
on `)` plus trailing whitespace when no `)` (unguarded by `(`) follows. -/
def diagSplitGo : Nat → Chars → Chars → List Chars
  | 0, _, acc => [acc.reverse]
  | _ + 1, [], acc => [acc.reverse]
  | fuel + 1, ',' :: rest, acc => acc.reverse :: diagSplitGo fuel rest []
  | fuel + 1, '(' :: rest, acc => acc.reverse :: diagSplitGo fuel rest []
  | fuel + 1, ')' :: rest, acc =>
    let w := wsCount rest
    if lookCloseParen (rest.drop w) then diagSplitGo fuel rest (')' :: acc)
    else acc.reverse :: diagSplitGo fuel (rest.drop w) []
  | fuel + 1, c :: rest, acc => diagSplitGo fuel rest (c :: acc)

/-- Python `str.strip()`. -/
def pyStrip (l : Chars) : Chars :=
  ((l.dropWhile isPyWs).reverse.dropWhile isPyWs).reverse

/-- Python `str.split()` with no argument: maximal non-whitespace runs. -/
def wsSplitGo : Chars → Chars → List String
  | [], cur => if cur.isEmpty then [] else [String.mk cur.reverse]
  | c :: rest, cur =>
    if isPyWs c then
      if cur.isEmpty then wsSplitGo rest [] else String.mk cur.reverse :: wsSplitGo rest []
    else wsSplitGo rest (c :: cur)

/-- The token list built in `parse_diag_x`: first split segment stripped, the
remaining segments broken at whitespace. -/
def diagTokens (txtP : String) : List String :=
  match diagSplitGo (txtP.data.length + 1) txtP.data [] with
  | [] => []
  | s0 :: rest => String.mk (pyStrip s0) :: rest.flatMap (fun seg => wsSplitGo seg [])

/-- Python `str.split(",")` (keeps empty segments). -/
def splitCommaGo : Chars → Chars → List String
  | [], acc => [String.mk acc.reverse]
  | c :: rest, acc =>
    if c = ',' then String.mk acc.reverse :: splitCommaGo rest []
    else splitCommaGo rest (c :: acc)

/-- Scanner for `re.sub(r" \([^)]*\)", "", s)`. -/
def removeParensGo : Nat → Chars → Chars
  | 0, l => l
  | _ + 1, [] => []
  | fuel + 1, ' ' :: '(' :: r2 =>
    (match r2.dropWhile (fun c => c ≠ ')') with
     | [] => ' ' :: removeParensGo fuel ('(' :: r2)
     | _ :: after => removeParensGo fuel after)
  | fuel + 1, c :: rest => c :: removeParensGo fuel rest

/-- `re.sub(r" \([^)]*\)", "", s)`: removes parenthesized groups preceded by a
space. -/
def removeParens (l : Chars) : Chars := removeParensGo (l.length + 1) l

/-- Scanner for left-to-right non-overlapping replacement of a literal substring. -/
def replaceSubGo (pat repl : Chars) : Nat → Chars → Chars
  | 0, l => l
  | _ + 1, [] => []
  | fuel + 1, c :: rest =>
    if pat ≠ [] && pat.isPrefixOf (c :: rest) then
      repl ++ replaceSubGo pat repl fuel (rest.drop (pat.length - 1))
    else c :: replaceSubGo pat repl fuel rest

/-- Generic left-to-right non-overlapping replacement of a literal substring. -/
def replaceSub (pat repl : Chars) (l : Chars) : Chars :=
  replaceSubGo pat repl (l.length + 1) l

/-- The text preprocessing of `parse_suicide_symp_x`: `:` becomes ` -`, newlines
become spaces, commas are dropped, and `"Self- "` is rejoined to `"Self-"`. -/
def suicideProcess (txt : String) : String :=
  let t1 := txt.data.flatMap (fun c => if c = ':' then " -".data else [c])
  let t2 := t1.map (fun c => if c = '\n' then ' ' else c)
  let t3 := t2.filter (fun c => c ≠ ',')
  String.mk (replaceSub "Self- ".data "Self-".data t3)

/-- Matcher for `re.search(r"C-\s?CASA\s?Code", txt)` at one position. -/
def casaFrom : Chars → Bool
  | 'C' :: '-' :: r =>
    let r1 := match r with
      | c :: rr => if isPyWs c then rr else r
      | [] => r
    if "CASA".data.isPrefixOf r1 then
      let r2 := r1.drop 4
      let r3 := match r2 with
        | c :: rr => if isPyWs c then rr else r2
        | [] => r2
      "Code".data.isPrefixOf r3
    else false
  | _ => false

/-- `re.search(r"C-\s?CASA\s?Code", txt)` as a Boolean. -/
def containsCasa (s : String) : Bool :=
  (List.range (s.data.length + 1)).any (fun i => casaFrom (s.data.drop i))

/-- `re.search(r"Patient\sComments", txt)` as a Boolean. -/
def containsPatientComments (s : String) : Bool :=
  (List.range (s.data.length + 1)).any (fun i =>
    let l := s.data.drop i
    "Patient".data.isPrefixOf l &&
      (match l.drop 7 with
       | c :: r => isPyWs c && "Comments".data.isPrefixOf r
       | [] => false))

/-- Length of the leading digit run. -/
def digitRun (l : Chars) : Nat := (l.takeWhile Char.isDigit).length

/-- `re.match(r"\d+_\d", txt)` as a Boolean. -/
def matchesId (s : String) : Bool :=
  let l := s.data
  let k := digitRun l
  decide (1 ≤ k) && (l.getD k ' ') = '_' && (l.getD (k + 1) ' ').isDigit

/-- `re.match(r"\d\d?/\d\d?/\d\d\d?\d?", txt)` as a Boolean. -/
def matchesDate (s : String) : Bool :=
  let l := s.data
  let k1 := digitRun l
  if k1 = 0 || 2 < k1 then false
  else
    match l.drop k1 with
    | '/' :: r1 =>
      let k2 := digitRun r1
      if k2 = 0 || 2 < k2 then false
      else
        match r1.drop k2 with
        | '/' :: r2 => decide (2 ≤ digitRun r2)
        | _ => false
    | _ => false

/-- One positioned text fragment (`Item` in the source): page, horizontal and
vertical position, stripped text. -/
structure Item where
  pg : Int
  x0 : Int
  y1 : Int
  txt : String
deriving DecidableEq, Repr

/-- The sort key comparison of `sort_el_coord`: Python's
`sorted(items, key=lambda k: (k.pg, -1 * k.y1, k.x0))`. -/
def itemLe (a b : Item) : Bool :=
  a.pg < b.pg || (a.pg = b.pg && (b.y1 < a.y1 || (a.y1 = b.y1 && a.x0 ≤ b.x0)))

/-- The sort key of `sort_el_coord` as a tuple. -/
def itemKey (a : Item) : Int × Int × Int := (a.pg, -a.y1, a.x0)

/-- Stable insertion: the new element goes after every element `b` with
`le b a`. -/
def insertLe (le : α → α → Bool) (a : α) : List α → List α
  | [] => [a]
  | b :: bs => if le b a then b :: insertLe le a bs else a :: b :: bs

/-- A stable sort (identical output to Python's stable `sorted` for a total
preorder `le`). -/
def stableSortBy (le : α → α → Bool) (l : List α) : List α :=
  l.foldl (fun acc a => insertLe le a acc) []

/-- `sort_el_coord`: deterministic reading order (page ascending, `y1`
descending, `x0` ascending). -/
def sort_el_coord (items : List Item) : List Item := stableSortBy itemLe items

/-- `sorted(set(xs))` for the distinct x-positions. -/
def sortedDistinct (l : List Int) : List Int :=
  stableSortBy (fun a b => a ≤ b) l.dedup

/-- One row of the field-template catalog (CSV columns
`Variable / Field Name`, `Section Header`, `Field Label`). -/
structure TRow where
  varName : String
  sectionHdr : String
  label : String
deriving DecidableEq, Repr

/-- A value stored in the output mapping: a string, the integer presence flag,
or an in-progress accumulator list of labeled lines. -/
inductive RVal
  | s (v : String)
  | n (v : Nat)
  | lst (v : List String)
deriving DecidableEq, Repr

/-- The output mapping `redcap_vals`: a Python `dict`, i.e. an association list
preserving insertion order with in-place update. -/
abbrev RMap := List (String × RVal)

/-- Dictionary lookup. -/
def getVal (m : RMap) (k : String) : Option RVal :=
  (m.find? (fun p => p.1 = k)).map (fun p => p.2)

/-- Dictionary assignment: updates in place if the key exists (keeping its
position), otherwise appends at the end — exactly Python dict semantics. -/
def setVal : RMap → String → RVal → RMap
  | [], k, v => [(k, v)]
  | p :: rest, k, v => if p.1 = k then (k, v) :: rest else p :: setVal rest k v

/-- Errors raised inside `parse_data`, tagged by Python exception class.
`ValueError`/`KeyError` tags are caught by `pull`; `IndexError`, `TypeError`
and `AttributeError` tags are not. -/
inductive PErr
  | infoXsCount
  | infoElsCount
  | idSplit
  | noId
  | noEvent
  | noDate
  | layoutMismatch
  | ambiguousMatch
  | noFieldMatch
  | dupField
  | tooManyTimes
  | invalidState (role : String)
  | timeKeyErr
  | diagKeyErr
  | suicideKeyErr
  | valsKeyErr
  | dateIndexErr
  | getIdxIndexErr
  | matchIndexErr
  | joinTypeErr
  | appendAttrErr
deriving DecidableEq, Repr

/-- Whether `pull`'s `except ValueError ... except KeyError` clauses catch the
given `parse_data` error (IndexError/TypeError/AttributeError raises escape). -/
def caughtByPull : PErr → Bool
  | .dateIndexErr => false
  | .getIdxIndexErr => false
  | .matchIndexErr => false
  | .joinTypeErr => false
  | .appendAttrErr => false
  | _ => true

/-- `ind_arg.sum()` over the boolean filter series aligned with the template. -/
def countMatches (tmpl : List TRow) (ind : TRow → Bool) : Nat :=
  (tmpl.filter ind).length

/-- `template.loc[ind]...values[0]`: the first template row satisfying the
filter, if any. -/
def matched_field (tmpl : List TRow) (ind : TRow → Bool) : Option TRow :=
  (tmpl.filter ind).head?

/-- `verify_match`: more than one candidate row raises the ambiguity
`ValueError`; zero candidates raises the no-match `ValueError`. -/
def verify_match (tmpl : List TRow) (ind : TRow → Bool) : Except PErr Unit :=
  if 1 < countMatches tmpl ind then .error .ambiguousMatch
  else if countMatches tmpl ind = 0 then .error .noFieldMatch
  else .ok ()

/-- `map_col`: writes the matched field into the mapping — the raw text when
`maptext` is set, the presence flag `1` otherwise; a pre-existing different
value raises the duplicate-field `ValueError`. -/
def map_col (tmpl : List TRow) (ind : TRow → Bool) (vals : RMap) (maptext : Bool)
    (txt : String) : Except PErr RMap :=
  match matched_field tmpl ind with
  | none => .error .matchIndexErr
  | some r =>
    match getVal vals r.varName with
    | some v =>
      if v = .s txt || v = .n 1 then
        .ok (setVal vals r.varName (if maptext then RVal.s txt else RVal.n 1))
      else .error .dupField
    | none => .ok (setVal vals r.varName (if maptext then RVal.s txt else RVal.n 1))

/-- The mutable scan state `curr_vars` (a Python dict whose absent keys raise
`KeyError` when read). -/
structure CurrVars where
  time : Option String := none
  diag : Option String := none
  suicide_field : Option String := none
deriving DecidableEq, Repr

/-- `parse_time_x`: strip the fixed trailing `" Diagnosis"` suffix (Python
`txt[:-10]`). -/
def parse_time_x (txt : String) : String := String.mk (txt.data.take (txt.data.length - 10))

/-- The token-conjunction loop of `parse_diag_x` (breaks early once exactly one
candidate remains). -/
def matchTokens (tmpl : List TRow) (tokens : List String) (ind : TRow → Bool) :
    TRow → Bool :=
  match tokens with
  | [] => ind
  | t :: ts =>
    let ind' := fun r => ind r && strContains false t r.label
    if countMatches tmpl ind' = 1 then ind' else matchTokens tmpl ts ind'

/-- Python `str.split(sep)` for a single-character separator (keeps empties). -/
def splitCharGo (sep : Char) : Chars → Chars → List String
  | [], acc => [String.mk acc.reverse]
  | c :: rest, acc =>
    if c = sep then String.mk acc.reverse :: splitCharGo sep rest []
    else splitCharGo sep rest (c :: acc)

/-- `parse_diag_x`: diagnosis-column handler. -/
def parse_diag_x (txt : String) (cv : CurrVars) (vals : RMap) (tmpl : List TRow) :
    Except PErr (RMap × CurrVars) := do
  let txtP := process_txt txt
  if strContains true "Suicidality" txtP then return (vals, cv)
  let cv := { cv with diag := some txtP }
  let time_str ← match searchCurrentPast txtP with
    | some t => pure t
    | none => match cv.time with
      | some t => pure t
      | none => throw PErr.timeKeyErr
  let ind0 : TRow → Bool := fun r => containsWordB false time_str r.sectionHdr
  let remission := (searchRemission txtP).getD ""
  let ind1 : TRow → Bool :=
    if remission ≠ "" then fun r => ind0 r && strContains false remission r.label
    else fun r => ind0 r && !(strContains false "remission" r.label)
  let txtP2 := String.mk (removeTimeRemission time_str.data remission.data txtP.data)
  let tokens := diagTokens txtP2
  let ind2 : TRow → Bool :=
    if strContains true "Attention-Deficit/Hyperactivity Disorder" txtP2 then
      if strContains true "Other" txtP2 then
        fun r => ind1 r && strContains false "Other" r.label
      else fun r => ind1 r && !(strContains false "Other" r.label)
    else ind1
  if strContains false "sleep problems" txtP2 || strContains false "insomnia" txtP2 then
    return (vals, cv)
  if strContains false "phobi" txtP2 then return (vals, cv)
  if strContains false "adjustment disorder" txtP2 then return (vals, cv)
  let ind3 : TRow → Bool :=
    if strContains false "disruptive mood dysregulation" txtP2 then
      fun r => ind2 r || !(containsWordB false time_str r.sectionHdr)
    else ind2
  let ind4 : TRow → Bool :=
    if strContains false "bipolar I disorder" txtP2 then
      fun r => ind3 r || !(strContains false remission r.label)
    else ind3
  let ind5 := matchTokens tmpl tokens ind4
  let _ ← verify_match tmpl ind5
  let vals' ← map_col tmpl ind5 vals false txtP2
  return (vals', cv)

/-- The symptom text of `parse_symp_x`: the first comma-separated token of the
processed fragment text (`tokens = txt_processed.split(","); symp = tokens[0]`). -/
def sympOf (txt : String) : String :=
  (splitCharGo ',' (process_txt txt).data []).headD ""

/-- The sleep special case's time lookup in `parse_symp_x`: reads
`curr_vars["time"]` (a `KeyError` when absent) only when the sleep special
case applies. -/
def sleep_time (cv : CurrVars) (sleepCase : Bool) : Except PErr (Option String) :=
  if sleepCase then
    match cv.time with
    | some ct => pure (some ct)
    | none => throw PErr.timeKeyErr
  else pure none

/-- The symptom time extraction of `parse_symp_x`: the single found
Current/Past match, or else the stripped `curr_vars["time"]` (a `KeyError`
when absent). -/
def symp_time (cv : CurrVars) (time_matches : List (String × String)) :
    Except PErr String :=
  if time_matches.length = 1 then
    Except.ok (if (time_matches.headD ("", "")).1 ≠ "" then
      (time_matches.headD ("", "")).1 else (time_matches.headD ("", "")).2)
  else match cv.time with
    | some t => Except.ok (String.mk (pyStrip t.data))
    | none => Except.error PErr.timeKeyErr

/-- Special case 6 of `parse_symp_x`: when no candidate matched, test whether
the current diagnosis is an adjustment disorder (reading `curr_vars["diag"]`,
a `KeyError` when absent). -/
def symp_adjustment (cv : CurrVars) (zero : Bool) : Except PErr Bool :=
  if zero then
    match cv.diag with
    | none => Except.error PErr.diagKeyErr
    | some d => Except.ok (strContains false "adjustment disorder" d)
  else Except.ok false

/-- Special case 7 of `parse_symp_x`: when no candidate matched and the current
diagnosis is disruptive mood dysregulation, drop the time constraint. -/
def symp_dmdd (cv : CurrVars) (symp : String) (ind4 : TRow → Bool) (zero : Bool) :
    Except PErr (TRow → Bool) :=
  if zero then
    match cv.diag with
    | none => Except.error PErr.diagKeyErr
    | some d =>
      if strContains false "disruptive mood dysregulation" d then
        Except.ok (fun r => strContains false symp r.label)
      else Except.ok ind4
  else Except.ok ind4

/-- The base symptom filter of `parse_symp_x`: field label contains the
symptom text (case-insensitively) and the section header contains the time
token at a word boundary (case-sensitively). -/
def symp_ind0 (symp time_str : String) : TRow → Bool := fun r =>
  strContains false symp r.label && containsWordB true time_str r.sectionHdr

/-- Special case 1 of `parse_symp_x`: stealing with/without "confronting". -/
def symp_ind1 (symp time_str : String) : TRow → Bool :=
  if strContains false "stealing" symp then
    if strContains true "confronting" symp then
      fun r => symp_ind0 symp time_str r && strContains false "confronting" r.label
    else
      fun r => symp_ind0 symp time_str r && !(strContains false "confronting" r.label)
  else symp_ind0 symp time_str

/-- Special case 2 of `parse_symp_x`: irritability vs explosive vs manic. -/
def symp_ind2 (symp txtP time_str : String) : TRow → Bool :=
  if strContains false "irritability" symp then
    if strContains true "Explosive" txtP then
      fun r => symp_ind1 symp time_str r && strContains false "Explosive" r.label
    else if strContains true "Manic" txtP then
      fun r => symp_ind1 symp time_str r && strContains false "Manic" r.label
    else fun r =>
      symp_ind1 symp time_str r && !(strContains false "Explosive" r.label) &&
        !(strContains false "Manic" r.label)
  else symp_ind1 symp time_str

/-- Special case 3 of `parse_symp_x`: suicidal ideation uses an exact
full-label match. -/
def symp_ind3 (symp txtP time_str : String) : TRow → Bool :=
  if eqCI symp "suicidal ideation" then
    fun r => eqCI r.label ("suicidal ideation: " ++ time_str)
  else symp_ind2 symp txtP time_str

/-- Special case 4 of `parse_symp_x`: the sleep item replaces the filter with
a "sleep problems" label filter using the carried time qualifier. -/
def symp_ind4 (symp txtP time_str : String) (sleepTime : Option String) :
    TRow → Bool :=
  match sleepTime with
  | some ct => fun r =>
      strContains false "sleep problems" r.label && containsWordB true ct r.sectionHdr
  | none => symp_ind3 symp txtP time_str

/-- Special cases 8-11 of `parse_symp_x`: attention/distraction/seated/elevated
label prefixes override the filter with exact-prefix label matches. -/
def symp_ind9 (symp time_str : String) (ind5 : TRow → Bool) : TRow → Bool :=
  let ind6 :=
    if strContains false "Difficulty sustaining" symp then
      fun r => strContains false "Difficulty sustaining" r.label &&
        containsWordB true time_str r.sectionHdr
    else ind5
  let ind7 :=
    if strContains false "easily distracted" symp then
      fun r => strContains false "easily distracted" r.label &&
        containsWordB true time_str r.sectionHdr
    else ind6
  let ind8 :=
    if strContains false "Difficulty remaining seated" symp then
      fun r => strContains false "Difficulty remaining seated" r.label &&
        containsWordB true time_str r.sectionHdr
    else ind7
  if strContains false "Elevated" symp && strContains false "mood" symp then
    fun r => strContains false "Elevated mood:" r.label &&
      containsWordB true time_str r.sectionHdr
  else ind8

/-- Special case 13 of `parse_symp_x`: distractibility with/without
"increased". -/
def symp_ind10 (symp : String) (ind9 : TRow → Bool) : TRow → Bool :=
  if strContains false "distractibility" symp then
    if strContains true "Increased" symp then
      fun r => ind9 r && strContains false "increased" r.label
    else fun r => ind9 r && !(strContains false "increased" r.label)
  else ind9

/-- `parse_symp_x`: symptom-column handler. The stages are the named filter
builders above, applied in the source's order. -/
def parse_symp_x (txt : String) (cv : CurrVars) (vals : RMap) (tmpl : List TRow) :
    Except PErr RMap :=
  if 1 < (findAllCurrentPast (String.mk (removeParens (process_txt txt).data))).length then
    .error .tooManyTimes
  else
    match symp_time cv (findAllCurrentPast (String.mk (removeParens (process_txt txt).data))) with
    | .error e => .error e
    | .ok time_str =>
      match sleep_time cv (strContains false
          "Patient reported trouble falling asleep or staying asleep" (sympOf txt)) with
      | .error e => .error e
      | .ok sleepTime =>
        if strContains false "phobi" (sympOf txt) then .ok vals
        else
          match symp_adjustment cv (decide (countMatches tmpl
              (symp_ind4 (sympOf txt) (process_txt txt) time_str sleepTime) = 0)) with
          | .error e => .error e
          | .ok adjCase =>
            if adjCase then .ok vals
            else
              match symp_dmdd cv (sympOf txt)
                  (symp_ind4 (sympOf txt) (process_txt txt) time_str sleepTime)
                  (decide (countMatches tmpl
                    (symp_ind4 (sympOf txt) (process_txt txt) time_str sleepTime) = 0)) with
              | .error e => .error e
              | .ok ind5 =>
                if strContains false "Hypersexuality" (sympOf txt) then .ok vals
                else
                  match verify_match tmpl (symp_ind10 (sympOf txt)
                      (symp_ind9 (sympOf txt) time_str ind5)) with
                  | .error e => .error e
                  | .ok _ =>
                    map_col tmpl (symp_ind10 (sympOf txt)
                      (symp_ind9 (sympOf txt) time_str ind5)) vals sleepTime.isSome txt

/-- `parse_suicide_symp_x`: suicide-risk item header handler — on a unique
match it opens a fresh accumulator for the matched field. -/
def parse_suicide_symp_x (txt : String) (cv : CurrVars) (vals : RMap)
    (tmpl : List TRow) (sfs : List String) :
    Except PErr (CurrVars × RMap × List String) := do
  if txt = "Symptom" then return (cv, vals, sfs)
  let txtP := suicideProcess txt
  let time ← match searchCurrentPast txtP with
    | some t => pure t
    | none => match cv.time with
      | some t => pure t
      | none => throw PErr.timeKeyErr
  let ind0 : TRow → Bool := fun r =>
    strContains false txtP r.label && strContains false time r.label
  let ind1 :=
    if eqCI (String.mk (pyStrip txtP.data)) "suicide attempt" then
      fun r => eqCI r.label (time ++ " suicide attempt")
    else ind0
  let prepStr := "preparatory actions toward imminent suicidal behavior"
  let ind2 :=
    if strContains false prepStr (String.mk (pyStrip txtP.data)) then
      fun r => strContains false prepStr r.label && containsWordB false time r.sectionHdr
    else ind1
  let _ ← verify_match tmpl ind2
  match matched_field tmpl ind2 with
  | none => throw PErr.matchIndexErr
  | some r =>
    let sf := r.varName
    return ({ cv with suicide_field := some sf }, setVal vals sf (.lst []), sfs ++ [sf])

/-- `parse_suicide_desc_x`: appends a labeled description line to the open
accumulator (skipping the repeated column header). -/
def parse_suicide_desc_x (txt : String) (cv : CurrVars) (vals : RMap) :
    Except PErr RMap := do
  if txt = "Description" then return vals
  match cv.suicide_field with
  | none => throw PErr.suicideKeyErr
  | some sf =>
    match getVal vals sf with
    | some (.lst l) =>
      return setVal vals sf (.lst (l ++
        ["Description: " ++ String.mk (txt.data.map (fun c => if c = '\n' then ' ' else c))]))
    | some _ => throw PErr.appendAttrErr
    | none => throw PErr.valsKeyErr

/-- `parse_suicide_casa_x`: appends a labeled C-CASA code line. -/
def parse_suicide_casa_x (txt : String) (cv : CurrVars) (vals : RMap) :
    Except PErr RMap := do
  if containsCasa txt then return vals
  match cv.suicide_field with
  | none => throw PErr.suicideKeyErr
  | some sf =>
    match getVal vals sf with
    | some (.lst l) =>
      return setVal vals sf (.lst (l ++
        ["C-CASA Code: " ++ String.mk (txt.data.map (fun c => if c = '\n' then ' ' else c))]))
    | some _ => throw PErr.appendAttrErr
    | none => throw PErr.valsKeyErr

/-- `parse_suicide_comments_x`: appends a labeled patient-comments line. -/
def parse_suicide_comments_x (txt : String) (cv : CurrVars) (vals : RMap) :
    Except PErr RMap := do
  if containsPatientComments txt then return vals
  match cv.suicide_field with
  | none => throw PErr.suicideKeyErr
  | some sf =>
    match getVal vals sf with
    | some (.lst l) =>
      return setVal vals sf (.lst (l ++
        ["Patient Comments: " ++ String.mk (txt.data.map (fun c => if c = '\n' then ' ' else c))]))
    | some _ => throw PErr.appendAttrErr
    | none => throw PErr.valsKeyErr

/-- The repeated condition of `get_idx` appending a second `desc_x`/`casa_x`/
`comments_x` column when the diagnosis column holds exactly two `Suicidality`
fragments (re-reads `diag_xs` at the current index of `diag_x`, which raises
`IndexError` when out of range). -/
def suicTwice (rows : List Item) (diag_xs : List Int) (xs : List String)
    (name : String) : Except PErr (List String) :=
  if xs.contains "diag_x" then
    match diag_xs.get? (xs.indexOf "diag_x") with
    | none => .error .getIdxIndexErr
    | some dx =>
      if rows.countP (fun it => it.x0 = dx && strContains true "Suicidality" it.txt) = 2 then
        .ok (xs ++ [name])
      else .ok xs
  else .ok xs

/-- The `symp_x` condition of `get_idx`: a symptom column is assumed when some
fragment in the diagnosis column does not contain `Suicidality` (re-reads
`diag_xs` at the current index of `diag_x`). -/
def sympCond (rows : List Item) (diag_xs : List Int) (xs : List String) :
    Except PErr (List String) :=
  if xs.contains "diag_x" then
    match diag_xs.get? (xs.indexOf "diag_x") with
    | none => .error .getIdxIndexErr
    | some dx =>
      if rows.any (fun it => it.x0 = dx && !(strContains true "Suicidality" it.txt)) then
        .ok (xs ++ ["symp_x"])
      else .ok xs
  else .ok xs

/-- `get_idx` from `parse_data`: builds the ordered column-role sequence from
content markers in the diagnosis-region fragments. -/
def get_idx (rows : List Item) (diag_xs : List Int) : Except PErr (List String) := do
  let hasNoDiag := rows.any (fun it => strContains true "No diagnosis" it.txt)
  let noDiagCount := rows.countP (fun it => strContains true "No diagnosis" it.txt)
  let xs1 := ["time_x"]
  let xs2 := if hasNoDiag then xs1 ++ ["no_diag_x"] else xs1
  let xs3 := if noDiagCount < 2 then xs2 ++ ["dis_type_x"] else xs2
  let xs4 := if xs3.contains "dis_type_x" then xs3 ++ ["diag_x"] else xs3
  let xs5 ← sympCond rows diag_xs xs4
  let xs6 := if rows.any (fun it => strContains true "Suicidality" it.txt) then
      xs5 ++ ["suicid_symp_x"] else xs5
  let xs7 := if xs6.contains "suicid_symp_x" then xs6 ++ ["desc_x"] else xs6
  let xs8 ← suicTwice rows diag_xs xs7 "desc_x"
  let xs9 := if xs8.contains "desc_x" then xs8 ++ ["casa_x"] else xs8
  let xs10 ← suicTwice rows diag_xs xs9 "casa_x"
  let xs11 := if xs10.contains "casa_x" then xs10 ++ ["comments_x"] else xs10
  suicTwice rows diag_xs xs11 "comments_x"

/-- The role resolution of the dispatch loop (`for idx, item_type in xs.items():
if diag_xs[int(idx)] == row.x0: break`): the role at the first index whose
x-position equals the fragment's; if no index matches, Python's loop variable is
left at the last element. -/
def roleFor (xs : List String) (diag_xs : List Int) (x0 : Int) : String :=
  match (List.range xs.length).find? (fun i => diag_xs.getD i 0 = x0) with
  | some i => xs.getD i ""
  | none => xs.getLastD ""

/-- The state threaded through the dispatch loop of `parse_data`. -/
structure DState where
  cv : CurrVars
  vals : RMap
  sfs : List String
deriving DecidableEq, Repr

/-- One iteration of the dispatch loop of `parse_data`: resolve the fragment's
column role and invoke the role handler; an unrecognized role raises the
invalid-state `ValueError`. -/
def dispatch_row (xs : List String) (diag_xs : List Int) (tmpl : List TRow)
    (st : DState) (row : Item) : Except PErr DState := do
  let txt := row.txt
  let item_type := roleFor xs diag_xs row.x0
  if item_type = "time_x" then
    return { st with cv := { st.cv with time := some (parse_time_x txt) } }
  else if item_type = "no_diag_x" then return st
  else if item_type = "dis_type_x" then return st
  else if item_type = "diag_x" then
    let res ← parse_diag_x txt st.cv st.vals tmpl
    return { st with vals := res.1, cv := res.2 }
  else if item_type = "symp_x" then
    let vals' ← parse_symp_x txt st.cv st.vals tmpl
    return { st with vals := vals' }
  else if item_type = "suicid_symp_x" then
    let res ← parse_suicide_symp_x txt st.cv st.vals tmpl st.sfs
    return { cv := res.1, vals := res.2.1, sfs := res.2.2 }
  else if item_type = "desc_x" then
    let vals' ← parse_suicide_desc_x txt st.cv st.vals
    return { st with vals := vals' }
  else if item_type = "casa_x" then
    let vals' ← parse_suicide_casa_x txt st.cv st.vals
    return { st with vals := vals' }
  else if item_type = "comments_x" then
    let vals' ← parse_suicide_comments_x txt st.cv st.vals
    return { st with vals := vals' }
  else throw (PErr.invalidState item_type)

/-- The final loop of `parse_data`: each recorded suicide field's accumulated
list is joined into one string with `" | "` (Python `" | ".join(x)`; joining a
string iterates its characters, joining an integer raises `TypeError`). -/
def finalize_suicide (vals : RMap) : List String → Except PErr RMap
  | [] => .ok vals
  | sf :: rest =>
    match getVal vals sf with
    | some (.lst l) =>
      finalize_suicide (setVal vals sf (.s (String.intercalate " | " l))) rest
    | some (.s str) =>
      finalize_suicide
        (setVal vals sf (.s (String.intercalate " | " (str.data.map (fun c => String.mk [c])))))
        rest
    | some (.n _) => .error .joinTypeErr
    | none => .error .valsKeyErr

/-- The identification stage of `parse_data`: shape checks on the
identification-region fragments (exactly 5 distinct x-positions, exactly 11
fragments), then extraction of subject/event (from the `\d+_\d` fragment) and
the interview date (from the date-shaped fragment, mapped to the first template
variable whose name contains "date"). -/
def parse_info_stage (idField : String) (tmpl : List TRow) (info_els : List Item) :
    Except PErr RMap := do
  let info_xs := sortedDistinct (info_els.map (fun it => it.x0))
  if info_xs.length ≠ 5 then throw PErr.infoXsCount
  if info_els.length ≠ 11 then throw PErr.infoElsCount
  let step ← info_els.foldlM (fun (acc : RMap × Option String) (el : Item) => do
    let txt := el.txt
    if matchesId txt then
      match splitCharGo '_' txt.data [] with
      | [subj, ev] =>
        pure (setVal (setVal acc.1 idField (.s subj)) "redcap_event_name"
                (.s ("year_" ++ ev ++ "_arm_1")), acc.2)
      | _ => throw PErr.idSplit
    else if matchesDate txt then
      match (tmpl.filter (fun r => strContains true "date" r.varName)).head? with
      | some r => pure (setVal acc.1 r.varName (.s txt), some r.varName)
      | none => throw PErr.dateIndexErr
    else pure acc) (([] : RMap), (none : Option String))
  let vals := step.1
  if (getVal vals idField).isNone then throw PErr.noId
  if (getVal vals "redcap_event_name").isNone then throw PErr.noEvent
  if step.2.isNone then throw PErr.noDate
  return vals

/-- `parse_data`: the whole per-document extraction pass — identification
stage, column classification with the structural length check, the dispatch
loop over the sorted diagnosis-region fragments, and the suicide-accumulator
join. -/
def parse_data (idField : String) (tmpl : List TRow) (diag_els info_els : List Item) :
    Except PErr RMap := do
  let diag_xs := sortedDistinct (diag_els.map (fun it => it.x0))
  let vals ← parse_info_stage idField tmpl info_els
  let xs ← get_idx diag_els diag_xs
  if xs.length ≠ diag_xs.length then throw PErr.layoutMismatch
  let st ← diag_els.foldlM (dispatch_row xs diag_xs tmpl) ⟨{}, vals, []⟩
  finalize_suicide st.vals st.sfs

/-- The uploader configuration and REDCap-side data visible to `pull`:
the identifier field, the template catalog, the `_field_forms` mapping (whose
keys are exactly `field_names()`), the known record ids, the form-completion
statuses (`_form_complete`, as a predicate returning whether the form's status
equals `COMPLETE`), the `skip_complete` flag and the `uploaded_status` value. -/
structure PullCfg where
  idField : String
  template : List TRow
  fieldForms : List (String × String)
  recordIds : List String
  formComplete : String → String → String → Bool
  skipComplete : Bool
  uploadedStatus : RVal

/-- `field_names()`: the keys of `_field_forms`. -/
def field_names (cfg : PullCfg) : List String := cfg.fieldForms.map (fun p => p.1)

/-- `field_form(field)`: dictionary lookup in `_field_forms` (`KeyError` when
absent, modelled as `none`). -/
def field_form (cfg : PullCfg) (field : String) : Option String :=
  (cfg.fieldForms.find? (fun p => p.1 = field)).map (fun p => p.2)

/-- `completed_field(field) = field_form(field) + "_complete"`. -/
def completed_field (cfg : PullCfg) (field : String) : Option String :=
  (field_form cfg field).map (fun f => f ++ "_complete")

/-- Errors of `is_complete`: an unknown record id raises `RedcapUploaderError`
(caught by `pull`'s completion block); an unknown field raises `KeyError` in
`field_form` (not caught there). -/
inductive ICErr
  | recordMissing
  | formKeyErr
deriving DecidableEq, Repr

/-- `is_complete(record_id, event, field)` from `redcap_uploader.py`. -/
def is_complete (cfg : PullCfg) (record_id event field : String) : Except ICErr Bool :=
  if cfg.recordIds.contains record_id then
    match field_form cfg field with
    | none => .error .formKeyErr
    | some form => .ok (cfg.formComplete record_id event form)
  else .error .recordMissing

/-- A document-level error collected by `pull` (the batch continues). -/
inductive DocErr
  | parseErr (e : PErr)
  | srcParse
  | subjMismatch
  | eventMismatch
  | srcMismatch
  | recordMissing
deriving DecidableEq, Repr

/-- An exception escaping `pull` uncaught (the whole batch run aborts and no
pulled data is returned). -/
inductive Fatal
  | parseFatal (e : PErr)
  | schemaErr (bad : List String)
  | completionKeyErr
  | stepKeyErr
deriving DecidableEq, Repr

/-- One report in the batch: the caller-supplied subject/event (the key of
`self._reports`), the first character of the report file name, and the two
fragment regions extracted from the document. -/
structure DocInput where
  subj : String
  event : String
  srcChar : String
  diagEls : List Item
  infoEls : List Item

/-- The respondent-source marker fragments among the information fragments
(`filter(get_source_element, info_els)` in `pull`). -/
def src_filter (infoEls : List Item) : List Item :=
  infoEls.filter (fun it => it.txt = "Parent" || it.txt = "Youth" || it.txt = "Teen")

/-- The respondent source extracted from the single marker fragment:
`"P"` for a parent report, `"Y"` otherwise. -/
def pdf_source (infoEls : List Item) : String :=
  if ((src_filter infoEls).headD ⟨0, 0, 0, ""⟩).txt = "Parent" then "P" else "Y"

/-- The identity verification block of `pull`: locate the respondent-source
marker (a document-level error when it is not unique), then compare extracted
subject, event and source against the caller-supplied values; each mismatch
raises a `KsadsUploaderError` caught right there (one document-level error). -/
def identity_check (cfg : PullCfg) (d : DocInput) (vals : RMap)
    (infoEls : List Item) : Except Fatal (Option DocErr) := do
  let pdfSubj ← match getVal vals cfg.idField with
    | some v => pure v
    | none => throw Fatal.stepKeyErr
  let pdfEvent ← match getVal vals "redcap_event_name" with
    | some v => pure v
    | none => throw Fatal.stepKeyErr
  if (src_filter infoEls).length ≠ 1 then return some DocErr.srcParse
  let pdfSource := pdf_source infoEls
  if pdfSubj ≠ .s d.subj then return some DocErr.subjMismatch
  if pdfEvent ≠ .s d.event then return some DocErr.eventMismatch
  if pdfSource ≠ d.srcChar then return some DocErr.srcMismatch
  return none

/-- The first key of the mapping that is neither the id field nor the event
field — the only field the completion loop of `pull` ever examines. -/
def firstNonIdentity (cfg : PullCfg) (vals : RMap) : Option String :=
  (vals.map (fun p => p.1)).find?
    (fun k => !(k = cfg.idField || k = "redcap_event_name"))

/-- Outcome of the completion block of `pull` for one document. -/
inductive CompRes
  | err (e : DocErr)
  | skip
  | proceed (m : RMap)
deriving DecidableEq, Repr

/-- The completion block of `pull`: it walks the mapping keys, skips the two
identity fields, and at the *first* other field either skips the whole document
(when `skip_complete` is set and the field's form is already complete) or marks
the companion completion-flag field and stops scanning. -/
def completion_stage (cfg : PullCfg) (d : DocInput) (vals : RMap) :
    Except Fatal CompRes :=
  match firstNonIdentity cfg vals with
  | none => .ok (.proceed vals)
  | some k =>
    if cfg.skipComplete then
      match is_complete cfg d.subj d.event k with
      | .error .recordMissing => .ok (.err .recordMissing)
      | .error .formKeyErr => .error .completionKeyErr
      | .ok true => .ok .skip
      | .ok false =>
        match completed_field cfg k with
        | none => .error .completionKeyErr
        | some cf => .ok (.proceed (setVal vals cf cfg.uploadedStatus))
    else
      match completed_field cfg k with
      | none => .error .completionKeyErr
      | some cf => .ok (.proceed (setVal vals cf cfg.uploadedStatus))

/-- The schema-integrity check of `pull`: every emitted non-identity field must
be a known field name. -/
def bad_fields (cfg : PullCfg) (vals : RMap) : List String :=
  (vals.map (fun p => p.1)).filter (fun f =>
    !(f = cfg.idField || f = "redcap_event_name") && !((field_names cfg).contains f))

/-- Processing of one document inside `pull`'s loop: sort both regions, run
`parse_data` (catching its `ValueError`/`KeyError` as a document-level error),
verify identity, apply the completion block, and check the schema; the result
is the optional record to accumulate and the optional document-level error. -/
def pullStep (cfg : PullCfg) (d : DocInput) :
    Except Fatal (Option RMap × Option DocErr) := do
  let diagEls := sort_el_coord d.diagEls
  let infoEls := sort_el_coord d.infoEls
  match parse_data cfg.idField cfg.template diagEls infoEls with
  | .error e =>
    if caughtByPull e then return (none, some (DocErr.parseErr e))
    else throw (Fatal.parseFatal e)
  | .ok vals =>
    let idres ← identity_check cfg d vals infoEls
    match idres with
    | some err => return (none, some err)
    | none =>
      let cres ← completion_stage cfg d vals
      match cres with
      | .err e => return (none, some e)
      | .skip => return (none, none)
      | .proceed vals2 =>
        if bad_fields cfg vals2 ≠ [] then throw (Fatal.schemaErr (bad_fields cfg vals2))
        else if vals2.isEmpty then return (none, none)
        else return (some vals2, none)

/-- `pull`: iterate over the reports, accumulating pulled records and
document-level errors; an uncaught exception aborts the whole run. -/
def pull (cfg : PullCfg) : List DocInput → Except Fatal (List RMap × List DocErr)
  | [] => .ok ([], [])
  | d :: ds => do
    let r ← pullStep cfg d
    let rest ← pull cfg ds
    return (r.1.toList ++ rest.1, r.2.toList ++ rest.2)

/-- Observation helper: the value a pulled record assigns to a field, if any
record emits it. -/
def emittedVal (res : Except Fatal (List RMap × List DocErr)) (f : String) : Option RVal :=
  match res with
  | .ok (ms, _) => (ms.filterMap (fun m => getVal m f)).head?
  | .error _ => none

/-- Observation helper: the value `parse_data` assigns to a field, if it
succeeds and emits it. -/
def parsedVal (idField : String) (tmpl : List TRow) (diag info : List Item)
    (f : String) : Option RVal :=
  match parse_data idField tmpl diag info with
  | .ok m => getVal m f
  | .error _ => none

/-- A small field-template catalog: an interview-date variable and one
current-diagnosis field. -/
def tmpl3 : List TRow :=
  [⟨"int_date", "Basic", "Interview date"⟩,
   ⟨"dep_f", "Current KSADS Diagnoses", "Dep thing F31"⟩]

/-- A well-formed identification region: 11 fragments over 5 distinct
x-positions carrying the subject/event tag, the date, and the respondent
marker. -/
def info11 : List Item :=
  [⟨0, 0, 100, "A1"⟩, ⟨0, 10, 100, "A2"⟩, ⟨0, 20, 100, "A3"⟩, ⟨0, 30, 100, "A4"⟩,
   ⟨0, 40, 100, "A5"⟩, ⟨0, 0, 90, "123_1"⟩, ⟨0, 10, 90, "1/2/2020"⟩,
   ⟨0, 20, 90, "Parent"⟩, ⟨0, 30, 90, "B4"⟩, ⟨0, 40, 90, "B5"⟩, ⟨0, 0, 80, "C1"⟩]

/-- A diagnosis region with the four columns time / disorder-type / diagnosis /
symptom, whose diagnosis matches `dep_f` and whose symptom is the silently
skipped `Hypersexuality`. -/
def diag3 : List Item :=
  [⟨0, 0, 100, "Current Diagnosis"⟩, ⟨0, 10, 95, "Depressive Disorders"⟩,
   ⟨0, 20, 90, "Dep, Current"⟩, ⟨0, 30, 85, "Hypersexuality"⟩]

/-- A configuration for the `diag3`/`info11` document: `dep_f` lives on a form
that is already complete, `int_date` on one that is not. -/
def cfg3 : PullCfg :=
  { idField := "record_id"
    template := tmpl3
    fieldForms := [("int_date", "info"), ("dep_f", "ksads"), ("info_complete", "info")]
    recordIds := ["123"]
    formComplete := fun s e f => s = "123" && e = "year_1_arm_1" && f = "ksads"
    skipComplete := true
    uploadedStatus := .s "1" }

/-- The well-formed document for subject 123, event year 1, parent report. -/
def doc3 : DocInput := ⟨"123", "year_1_arm_1", "P", diag3, info11⟩

/-- The same document offered under a different caller-supplied subject id. -/
def doc6 : DocInput := ⟨"999", "year_1_arm_1", "P", diag3, info11⟩

/-- A configuration whose schema does not know the emitted field `dep_f`. -/
def cfg5 : PullCfg :=
  { cfg3 with fieldForms := [("int_date", "info"), ("info_complete", "info")] }

/-- The record pulled from `doc3` under `cfg3`. -/
def rec3 : RMap :=
  [("record_id", .s "123"), ("redcap_event_name", .s "year_1_arm_1"),
   ("int_date", .s "1/2/2020"), ("dep_f", .n 1), ("info_complete", .s "1")]

/-- `diag3` with one extra column of fragments that no role explains: the
classifier infers 4 roles against 5 observed x-positions. -/
def diagMismatch : List Item := diag3 ++ [⟨0, 40, 80, "Extra"⟩]

/-- A document whose diagnosis region triggers the layout-mismatch check. -/
def docMismatch : DocInput := ⟨"123", "year_1_arm_1", "P", diagMismatch, info11⟩

/-- An identification region with too few fragments (shape check violation). -/
def infoShort : List Item := info11.take 10

/-- A document with a malformed identification region. -/
def docShort : DocInput := ⟨"123", "year_1_arm_1", "P", diag3, infoShort⟩

/-- A template whose suicide-risk field label matches the `AttemptX` header. -/
def tmpl7 : List TRow :=
  [⟨"int_date", "Basic", "Interview date"⟩,
   ⟨"sf", "Suicidal", "AttemptX Current blah"⟩]

/-- A diagnosis region with a suicide-risk block in which the same risk-item
header appears twice, re-opening (and resetting) the same accumulator field. -/
def diag7 : List Item :=
  [⟨0, 0, 100, "Current Diagnosis"⟩, ⟨0, 10, 95, "Depressive Disorders"⟩,
   ⟨0, 20, 90, "Suicidality"⟩, ⟨0, 30, 85, "AttemptX"⟩, ⟨0, 40, 80, "d1"⟩,
   ⟨0, 30, 75, "AttemptX"⟩, ⟨0, 40, 70, "d2"⟩, ⟨0, 50, 65, "code1"⟩,
   ⟨0, 60, 60, "comm1"⟩]

/-- A template with a sleep-problems field. -/
def tmpl9 : List TRow :=
  [⟨"int_date", "Basic", "Interview date"⟩,
   ⟨"sleep_f", "Current KSADS Sx", "xx sleep problems yy"⟩]

/-- A diagnosis region whose symptom column carries the sleep special case
followed by another fragment with different text. -/
def diag9 : List Item :=
  [⟨0, 0, 100, "Current Diagnosis"⟩, ⟨0, 10, 95, "Sleep Disorders"⟩,
   ⟨0, 20, 90, "Sleep Problems, present"⟩,
   ⟨0, 30, 85, "Patient reported trouble falling asleep or staying asleep"⟩,
   ⟨0, 30, 80, "Hypersexuality"⟩]

/-- A two-row template in which an over-broad filter matches both rows. -/
def tmplAmb : List TRow :=
  [⟨"a_f", "Current S", "Alpha one"⟩, ⟨"b_f", "Current S", "Alpha two"⟩]

/-- A configuration in which the form of the *first* non-identity field
(`int_date`, on form `info`) is the one already complete. -/
def cfgSkip : PullCfg :=
  { cfg3 with formComplete := fun s e f => s = "123" && e = "year_1_arm_1" && f = "info" }

/-- The known column-role vocabulary of the dispatcher. -/
def knownRoles : List String :=
  ["time_x", "no_diag_x", "dis_type_x", "diag_x", "symp_x", "suicid_symp_x",
   "desc_x", "casa_x", "comments_x"]

theorem getVal_cons (p : String × RVal) (rest : RMap) (kk : String) :
    getVal (p :: rest) kk = if p.1 = kk then some p.2 else getVal rest kk := by
  by_cases h : p.1 = kk <;> simp [getVal, List.find?_cons, h]

theorem getVal_setVal_self (m : RMap) (k : String) (v : RVal) :
    getVal (setVal m k v) k = some v := by
  induction m with
  | nil => simp [setVal, getVal_cons]
  | cons p rest ih =>
    by_cases hp : p.1 = k
    · simp [setVal, hp, getVal_cons]
    · simpa [setVal, hp, getVal_cons] using ih

theorem getVal_setVal_ne (m : RMap) (k kk : String) (v : RVal) (h : kk ≠ k) :
    getVal (setVal m k v) kk = getVal m kk := by
  induction m with
  | nil => simp [setVal, getVal_cons, getVal, Ne.symm h]
  | cons p rest ih =>
    by_cases hp : p.1 = k
    · have hpk : ¬ p.1 = kk := by rw [hp]; exact Ne.symm h
      simp [setVal, hp, getVal_cons, Ne.symm h, hpk]
    · by_cases hpk : p.1 = kk
      · simp [setVal, hp, getVal_cons, hpk, h]
      · simpa [setVal, hp, getVal_cons, hpk] using ih

theorem finalize_preserves (fs : List String) (vals : RMap) (sf : String)
    (hnot : sf ∉ fs) (hnd : fs.Nodup)
    (hall : ∀ f ∈ fs, ∃ lf, getVal vals f = some (.lst lf)) :
    ∃ m, finalize_suicide vals fs = .ok m ∧ getVal m sf = getVal vals sf := by
  induction fs generalizing vals with
  | nil => exact ⟨vals, rfl, rfl⟩
  | cons f fs ih =>
    rcases List.nodup_cons.mp hnd with ⟨hfn, hfs⟩
    obtain ⟨lf, hlf⟩ := hall f (by simp)
    have hsf : sf ≠ f := by
      intro he
      exact hnot (he ▸ List.mem_cons_self f fs)
    obtain ⟨m, hm, hg⟩ := ih (setVal vals f (.s (String.intercalate " | " lf)))
      (fun hmem => hnot (List.mem_cons_of_mem f hmem))
      hfs
      (fun g hg => by
        obtain ⟨lg, hlg⟩ := hall g (List.mem_cons_of_mem f hg)
        have hgf : g ≠ f := fun he => hfn (he ▸ hg)
        exact ⟨lg, by rw [getVal_setVal_ne _ _ _ _ hgf]; exact hlg⟩)
    refine ⟨m, ?_, ?_⟩
    · simp only [finalize_suicide, hlf]
      exact hm
    · rw [hg, getVal_setVal_ne _ _ _ _ hsf]

theorem finalize_getVal (sfs : List String) (vals : RMap) (sf : String) (l : List String)
    (hnd : sfs.Nodup) (hmem : sf ∈ sfs)
    (hall : ∀ f ∈ sfs, ∃ lf, getVal vals f = some (.lst lf))
    (hsf : getVal vals sf = some (.lst l)) :
    ∃ m, finalize_suicide vals sfs = .ok m ∧
      getVal m sf = some (.s (String.intercalate " | " l)) := by
  induction sfs generalizing vals with
  | nil => cases hmem
  | cons f fs ih =>
    rcases List.nodup_cons.mp hnd with ⟨hfn, hfs⟩
    obtain ⟨lf, hlf⟩ := hall f (by simp)
    rcases List.mem_cons.mp hmem with heq | hmem2
    · subst heq
      have hl : l = lf := by
        have h2 := hsf.symm.trans hlf
        simpa using h2
      subst hl
      obtain ⟨m, hm, hg⟩ := finalize_preserves fs
        (setVal vals sf (.s (String.intercalate " | " l))) sf hfn hfs
        (fun g hg => by
          obtain ⟨lg, hlg⟩ := hall g (List.mem_cons_of_mem sf hg)
          have hgf : g ≠ sf := fun he => hfn (he ▸ hg)
          exact ⟨lg, by rw [getVal_setVal_ne _ _ _ _ hgf]; exact hlg⟩)
      refine ⟨m, ?_, ?_⟩
      · simp only [finalize_suicide, hlf]
        exact hm
      · rw [hg, getVal_setVal_self]
    · have hsfne : sf ≠ f := fun he => hfn (he ▸ hmem2)
      obtain ⟨m, hm, hg⟩ := ih (setVal vals f (.s (String.intercalate " | " lf))) hfs hmem2
        (fun g hg => by
          obtain ⟨lg, hlg⟩ := hall g (List.mem_cons_of_mem f hg)
          have hgf : g ≠ f := fun he => hfn (he ▸ hg)
          exact ⟨lg, by rw [getVal_setVal_ne _ _ _ _ hgf]; exact hlg⟩)
        (by rw [getVal_setVal_ne _ _ _ _ hsfne]; exact hsf)
      refine ⟨m, ?_, hg⟩
      simp only [finalize_suicide, hlf]
      exact hm

theorem itemLe_total (a b : Item) : itemLe a b = true ∨ itemLe b a = true := by
  simp only [itemLe, Bool.or_eq_true, Bool.and_eq_true, decide_eq_true_eq]
  omega

theorem itemLe_trans {a b c : Item} (h1 : itemLe a b = true) (h2 : itemLe b c = true) :
    itemLe a c = true := by
  simp only [itemLe, Bool.or_eq_true, Bool.and_eq_true, decide_eq_true_eq] at h1 h2 ⊢
  omega

theorem itemLe_of_key_eq {a b : Item} (h : itemKey a = itemKey b) : itemLe a b = true := by
  simp only [itemKey, Prod.mk.injEq] at h
  simp only [itemLe, Bool.or_eq_true, Bool.and_eq_true, decide_eq_true_eq]
  omega

theorem insertLe_perm (le : α → α → Bool) (a : α) (l : List α) :
    (insertLe le a l).Perm (a :: l) := by
  induction l with
  | nil => exact List.Perm.refl _
  | cons b bs ih =>
    by_cases h : le b a = true
    · simpa [insertLe, h] using ((ih.cons b).trans (List.Perm.swap a b bs))
    · simp [insertLe, h]

theorem stableSortBy_perm_aux (le : α → α → Bool) (l acc : List α) :
    (List.foldl (fun acc a => insertLe le a acc) acc l).Perm (acc ++ l) := by
  induction l generalizing acc with
  | nil => simp
  | cons x xs ih =>
    simp only [List.foldl_cons]
    refine (ih (insertLe le x acc)).trans ?_
    refine (((insertLe_perm le x acc).append_right xs).trans ?_)
    simpa using List.perm_middle.symm

theorem stableSortBy_perm (le : α → α → Bool) (l : List α) :
    (stableSortBy le l).Perm l := by
  simpa using stableSortBy_perm_aux le l []

theorem insertLe_sorted (a : Item) {l : List Item}
    (hl : l.Pairwise (fun x y => itemLe x y = true)) :
    (insertLe itemLe a l).Pairwise (fun x y => itemLe x y = true) := by
  induction l with
  | nil => simp [insertLe]
  | cons b bs ih =>
    rcases List.pairwise_cons.mp hl with ⟨hb, hbs⟩
    by_cases h : itemLe b a = true
    · simp only [insertLe, h, if_true]
      refine List.pairwise_cons.mpr ⟨?_, ih hbs⟩
      intro x hx
      rcases List.mem_cons.mp (((insertLe_perm itemLe a bs).mem_iff).mp hx) with rfl | hx2
      · exact h
      · exact hb x hx2
    · simp only [insertLe, h, if_false]
      refine List.pairwise_cons.mpr ⟨?_, hl⟩
      intro x hx
      rcases List.mem_cons.mp hx with rfl | hx2
      · rcases itemLe_total a x with ha | ha
        · exact ha
        · exact absurd ha h
      · rcases itemLe_total a b with hab | hab
        · exact itemLe_trans hab (hb x hx2)
        · exact absurd hab h

theorem stableSortBy_sorted_aux (l acc : List Item)
    (hacc : acc.Pairwise (fun x y => itemLe x y = true)) :
    (List.foldl (fun acc a => insertLe itemLe a acc) acc l).Pairwise
      (fun x y => itemLe x y = true) := by
  induction l generalizing acc with
  | nil => exact hacc
  | cons x xs ih => exact ih _ (insertLe_sorted x hacc)

theorem sort_el_coord_sorted (l : List Item) :
    (sort_el_coord l).Pairwise (fun x y => itemLe x y = true) :=
  stableSortBy_sorted_aux l [] (List.Pairwise.nil)

theorem insertLe_append_of_all {a : Item} {l : List Item}
    (h : ∀ b ∈ l, itemLe b a = true) : insertLe itemLe a l = l ++ [a] := by
  induction l with
  | nil => rfl
  | cons b bs ih =>
    have hb : itemLe b a = true := h b (by simp)
    simp only [insertLe, hb, if_true, List.cons_append, List.cons.injEq, true_and]
    exact ih (fun c hc => h c (List.mem_cons_of_mem b hc))

theorem stableSortBy_of_sorted_aux (l acc : List Item)
    (h : (acc ++ l).Pairwise (fun x y => itemLe x y = true)) :
    List.foldl (fun acc a => insertLe itemLe a acc) acc l = acc ++ l := by
  induction l generalizing acc with
  | nil => simp
  | cons x xs ih =>
    have hins : insertLe itemLe x acc = acc ++ [x] := by
      refine insertLe_append_of_all (fun b hb => ?_)
      exact (List.pairwise_append.mp h).2.2 b hb x (by simp)
    simp only [List.foldl_cons, hins]
    have h2 : ((acc ++ [x]) ++ xs).Pairwise (fun x y => itemLe x y = true) := by
      simpa [List.append_assoc] using h
    simpa [List.append_assoc] using ih (acc ++ [x]) h2

theorem stableSortBy_of_sorted {l : List Item}
    (h : l.Pairwise (fun x y => itemLe x y = true)) :
    stableSortBy itemLe l = l := by
  simpa using stableSortBy_of_sorted_aux l [] (by simpa using h)

theorem sort_el_coord_idem (l : List Item) :
    sort_el_coord (sort_el_coord l) = sort_el_coord l :=
  stableSortBy_of_sorted (sort_el_coord_sorted l)

theorem filter_insertLe_ne (a : Item) (l : List Item) (k : Int × Int × Int)
    (ha : ¬ itemKey a = k) :
    (insertLe itemLe a l).filter (fun x => itemKey x = k) =
      l.filter (fun x => itemKey x = k) := by
  induction l with
  | nil => simp [insertLe, ha]
  | cons b bs ih =>
    by_cases h : itemLe b a = true
    · by_cases hb : itemKey b = k
      · simp [insertLe, h, List.filter_cons, hb, ih]
      · simp [insertLe, h, List.filter_cons, hb, ih]
    · simp [insertLe, h, List.filter_cons, ha]

theorem filter_insertLe_eq (a : Item) (l : List Item) (k : Int × Int × Int)
    (hl : l.Pairwise (fun x y => itemLe x y = true)) (ha : itemKey a = k) :
    (insertLe itemLe a l).filter (fun x => itemKey x = k) =
      l.filter (fun x => itemKey x = k) ++ [a] := by
  induction l with
  | nil => simp [insertLe, ha]
  | cons b bs ih =>
    rcases List.pairwise_cons.mp hl with ⟨hb, hbs⟩
    by_cases h : itemLe b a = true
    · by_cases hbk : itemKey b = k
      · simp [insertLe, h, List.filter_cons, hbk, ih hbs]
      · simp [insertLe, h, List.filter_cons, hbk, ih hbs]
    · have hbk : ¬ itemKey b = k := by
        intro hbk
        exact h (itemLe_of_key_eq (hbk.trans ha.symm))
      have hfe : bs.filter (fun x => itemKey x = k) = [] := by
        refine List.filter_eq_nil_iff.mpr (fun x hx => ?_)
        simp only [decide_eq_true_eq]
        intro hxk
        have hxa : itemLe x a = true := itemLe_of_key_eq (hxk.trans ha.symm)
        exact h (itemLe_trans (hb x hx) hxa)
      simp [insertLe, h, List.filter_cons, ha, hbk, hfe]

theorem filter_stableSortBy_aux (l acc : List Item) (k : Int × Int × Int)
    (hacc : acc.Pairwise (fun x y => itemLe x y = true)) :
    (List.foldl (fun acc a => insertLe itemLe a acc) acc l).filter
        (fun x => itemKey x = k) =
      acc.filter (fun x => itemKey x = k) ++ l.filter (fun x => itemKey x = k) := by
  induction l generalizing acc with
  | nil => simp
  | cons x xs ih =>
    simp only [List.foldl_cons]
    rw [ih _ (insertLe_sorted x hacc)]
    by_cases hx : itemKey x = k
    · rw [filter_insertLe_eq x acc k hacc hx]
      simp [List.filter_cons, hx]
    · rw [filter_insertLe_ne x acc k hx]
      simp [List.filter_cons, hx]

theorem sort_el_coord_stable (l : List Item) (k : Int × Int × Int) :
    (sort_el_coord l).filter (fun x => itemKey x = k) =
      l.filter (fun x => itemKey x = k) := by
  simpa using filter_stableSortBy_aux l [] k List.Pairwise.nil

theorem except_bind_ok {ε α β : Type} (a : α) (f : α → Except ε β) :
    (Except.ok a >>= f) = f a := rfl

theorem except_bind_err {ε α β : Type} (e : ε) (f : α → Except ε β) :
    (Except.error e >>= f : Except ε β) = Except.error e := rfl

theorem except_throw {ε α : Type} (e : ε) : (throw e : Except ε α) = Except.error e := rfl

theorem except_pure {ε α : Type} (a : α) : (pure a : Except ε α) = Except.ok a := rfl

/-- Claim C8: the Fragment Sorter `sort_el_coord` is a pure stable sort by
(page ascending, y1 descending, x0 ascending): its output is a permutation of
the input (no other effect), it is sorted for the total comparison `itemLe`
derived from that key, it is idempotent, and it is stable — every subsequence
of items sharing one sort key is preserved exactly. -/
theorem C8_fragment_sorter (l : List Item) :
    (sort_el_coord l).Perm l ∧
    (sort_el_coord l).Pairwise (fun a b => itemLe a b = true) ∧
    sort_el_coord (sort_el_coord l) = sort_el_coord l ∧
    (∀ k : Int × Int × Int, (sort_el_coord l).filter (fun x => itemKey x = k) =
      l.filter (fun x => itemKey x = k)) ∧
    (∀ a b : Item, itemLe a b = true ∨ itemLe b a = true) :=
  ⟨stableSortBy_perm itemLe l, sort_el_coord_sorted l, sort_el_coord_idem l,
   sort_el_coord_stable l, itemLe_total⟩

/-- Claim C1: the Field Matcher contract. For any template catalog and any
combined filter: exactly one satisfying row means `verify_match` passes and the
selected field is that row's; zero rows means the no-match error; more than one
row always means the ambiguity error; and in both error cases the
`verify_match`-then-`map_col` sequence yields the error, so no field is written
into the mapping. -/
theorem C1_field_matcher (tmpl : List TRow) (ind : TRow → Bool) (vals : RMap)
    (maptext : Bool) (txt : String) :
    (countMatches tmpl ind = 1 →
      ∃ r, tmpl.filter ind = [r] ∧ verify_match tmpl ind = .ok () ∧
        matched_field tmpl ind = some r) ∧
    (countMatches tmpl ind = 0 →
      verify_match tmpl ind = .error .noFieldMatch ∧
      (verify_match tmpl ind >>= fun _ => map_col tmpl ind vals maptext txt) =
        .error .noFieldMatch) ∧
    (1 < countMatches tmpl ind →
      verify_match tmpl ind = .error .ambiguousMatch ∧
      (verify_match tmpl ind >>= fun _ => map_col tmpl ind vals maptext txt) =
        .error .ambiguousMatch) := by
  refine ⟨?_, ?_, ?_⟩
  · intro h1
    obtain ⟨r, hr⟩ := List.length_eq_one.mp h1
    refine ⟨r, hr, ?_, ?_⟩
    · simp [verify_match, h1]
    · simp [matched_field, hr]
  · intro h0
    have hv : verify_match tmpl ind = .error .noFieldMatch := by
      simp [verify_match, h0]
    exact ⟨hv, by rw [hv, except_bind_err]⟩
  · intro h2
    have hv : verify_match tmpl ind = .error .ambiguousMatch := by
      simp [verify_match, h2]
    exact ⟨hv, by rw [hv, except_bind_err]⟩

/-- Witness for C1: on a concrete two-row template, a one-row filter selects
that row's field, the empty filter raises the no-match error, and the all-rows
filter raises the ambiguity error. -/
theorem C1_field_matcher_witness :
    (∃ r, tmplAmb.filter (fun r => r.varName = "a_f") = [r] ∧
      verify_match tmplAmb (fun r => r.varName = "a_f") = .ok () ∧
      matched_field tmplAmb (fun r => r.varName = "a_f") = some r) ∧
    verify_match tmplAmb (fun _ => false) = .error .noFieldMatch ∧
    verify_match tmplAmb (fun _ => true) = .error .ambiguousMatch :=
  ⟨(C1_field_matcher tmplAmb (fun r => r.varName = "a_f") [] false "t").1 (by decide),
   ((C1_field_matcher tmplAmb (fun _ => false) [] false "t").2.1 (by decide)).1,
   ((C1_field_matcher tmplAmb (fun _ => true) [] false "t").2.2 (by decide)).1⟩

/-- Claim C10: `parse_data` raises an error (and returns no mapping) unless the
identification-region fragment set consists of exactly 11 fragments with
exactly 5 distinct x0 values; the two shape checks run before anything else. -/
theorem C10_info_shape (idField : String) (tmpl : List TRow)
    (diag_els info_els : List Item)
    (h : info_els.length ≠ 11 ∨
      (sortedDistinct (info_els.map (fun it => it.x0))).length ≠ 5) :
    parse_data idField tmpl diag_els info_els = .error .infoXsCount ∨
    parse_data idField tmpl diag_els info_els = .error .infoElsCount := by
  by_cases h5 : (sortedDistinct (info_els.map (fun it => it.x0))).length = 5
  · have h11 : info_els.length ≠ 11 := by tauto
    right
    have hinfo : parse_info_stage idField tmpl info_els = .error .infoElsCount := by
      simp [parse_info_stage, h5, h11, except_throw, except_bind_err]
    simp [parse_data, hinfo, except_bind_err]
  · left
    have hinfo : parse_info_stage idField tmpl info_els = .error .infoXsCount := by
      simp [parse_info_stage, h5, except_throw, except_bind_err]
    simp [parse_data, hinfo, except_bind_err]

/-- Witness for C10: a 10-fragment identification region makes `parse_data`
fail with one of the two shape errors. -/
theorem C10_info_shape_witness :
    parse_data "record_id" tmpl3 diag3 infoShort = .error .infoXsCount ∨
    parse_data "record_id" tmpl3 diag3 infoShort = .error .infoElsCount :=
  C10_info_shape "record_id" tmpl3 diag3 infoShort (by decide)

theorem pullStep_parse_err (cfg : PullCfg) (d : DocInput) (e : PErr)
    (hp : parse_data cfg.idField cfg.template (sort_el_coord d.diagEls)
      (sort_el_coord d.infoEls) = .error e)
    (hc : caughtByPull e = true) :
    pullStep cfg d = .ok (none, some (.parseErr e)) := by
  simp [pullStep, hp, hc, except_pure]

theorem pull_cons_step (cfg : PullCfg) (d : DocInput) (ds : List DocInput)
    (rec? : Option RMap) (err? : Option DocErr) (rs : List RMap) (es : List DocErr)
    (h1 : pullStep cfg d = .ok (rec?, err?))
    (h2 : pull cfg ds = .ok (rs, es)) :
    pull cfg (d :: ds) = .ok (rec?.toList ++ rs, err?.toList ++ es) := by
  simp [pull, h1, h2, except_bind_ok, except_pure]

theorem pull_cons_fatal (cfg : PullCfg) (d : DocInput) (ds : List DocInput) (e : Fatal)
    (h : pullStep cfg d = .error e) :
    pull cfg (d :: ds) = .error e := by
  simp [pull, h, except_bind_err]

theorem pull_append_fatal (cfg : PullCfg) (pre : List DocInput) (d : DocInput)
    (rest : List DocInput) (e : Fatal)
    (hok : ∀ p ∈ pre, ∃ out, pullStep cfg p = .ok out)
    (hd : pullStep cfg d = .error e) :
    pull cfg (pre ++ d :: rest) = .error e := by
  induction pre with
  | nil => simpa using pull_cons_fatal cfg d rest e hd
  | cons q qs ih =>
    obtain ⟨out, hout⟩ := hok q (by simp)
    have ihh := ih (fun p hp => hok p (List.mem_cons_of_mem q hp))
    simp [pull, hout, except_bind_ok, ihh, except_bind_err]

/-- Claim C2: whenever the inferred column-role sequence and the distinct
x-position list have different lengths, `parse_data` fails with the
layout-mismatch error (so extraction never succeeds for such a document), and
in `pull` that failure is recorded as one document-level error while the
document contributes no partial mapping to the pulled output and the batch
continues. -/
theorem C2_layout_mismatch (idField : String) (tmpl : List TRow)
    (diag_els info_els : List Item) (vals : RMap) (xs : List String)
    (hinfo : parse_info_stage idField tmpl info_els = .ok vals)
    (hxs : get_idx diag_els (sortedDistinct (diag_els.map (fun it => it.x0))) = .ok xs)
    (hlen : xs.length ≠ (sortedDistinct (diag_els.map (fun it => it.x0))).length) :
    parse_data idField tmpl diag_els info_els = .error .layoutMismatch ∧
    (∀ m, parse_data idField tmpl diag_els info_els ≠ .ok m) ∧
    (∀ (cfg : PullCfg) (d : DocInput) (rest : List DocInput) rs es,
      cfg.idField = idField → cfg.template = tmpl →
      sort_el_coord d.diagEls = diag_els → sort_el_coord d.infoEls = info_els →
      pull cfg rest = .ok (rs, es) →
      pullStep cfg d = .ok (none, some (.parseErr .layoutMismatch)) ∧
      pull cfg (d :: rest) = .ok (rs, DocErr.parseErr .layoutMismatch :: es)) := by
  have hpd : parse_data idField tmpl diag_els info_els = .error .layoutMismatch := by
    simp [parse_data, hinfo, hxs, except_bind_ok, hlen, except_throw, except_bind_err]
  refine ⟨hpd, ?_, ?_⟩
  · intro m hm
    rw [hpd] at hm
    cases hm
  intro cfg d rest rs es hcid hct hsd hsi hrest
  have hstep : pullStep cfg d = .ok (none, some (.parseErr .layoutMismatch)) := by
    refine pullStep_parse_err cfg d _ ?_ rfl
    rw [hcid, hct, hsd, hsi]
    exact hpd
  refine ⟨hstep, ?_⟩
  have h4 := pull_cons_step cfg d rest none
    (some (DocErr.parseErr PErr.layoutMismatch)) rs es hstep hrest
  simpa using h4

/-- Witness for C2: a document whose diagnosis region has five observed
x-positions but only four inferred roles fails with the layout mismatch, and
contributes only a document-level error to `pull`. -/
theorem C2_layout_mismatch_witness :
    parse_data "record_id" tmpl3 diagMismatch info11 = .error .layoutMismatch ∧
    pull cfg3 [docMismatch] = .ok ([], [DocErr.parseErr .layoutMismatch]) := by
  have h := C2_layout_mismatch "record_id" tmpl3 diagMismatch info11
    [("record_id", .s "123"), ("redcap_event_name", .s "year_1_arm_1"),
     ("int_date", .s "1/2/2020")]
    ["time_x", "dis_type_x", "diag_x", "symp_x"] (by decide) (by decide) (by decide)
  refine ⟨h.1, ?_⟩
  exact (h.2.2 cfg3 docMismatch [] [] [] rfl rfl (by decide) (by decide) rfl).2

theorem pullStep_identity_err (cfg : PullCfg) (d : DocInput) (vals : RMap) (e : DocErr)
    (hpar : parse_data cfg.idField cfg.template (sort_el_coord d.diagEls)
      (sort_el_coord d.infoEls) = .ok vals)
    (hid : identity_check cfg d vals (sort_el_coord d.infoEls) = .ok (some e)) :
    pullStep cfg d = .ok (none, some e) := by
  simp [pullStep, hpar, except_bind_ok, hid, except_pure]

/-- Claim C6: when a successfully parsed document's extracted subject, event or
respondent-source marker differs from the caller-supplied expected values,
`pull` records exactly one document-level error for it (the first failing
check), emits no record for it, and continues with the remaining documents. -/
theorem C6_identity_mismatch (cfg : PullCfg) (d : DocInput) (vals : RMap)
    (vs ve : RVal) (rest : List DocInput)
    (hpar : parse_data cfg.idField cfg.template (sort_el_coord d.diagEls)
      (sort_el_coord d.infoEls) = .ok vals)
    (hvs : getVal vals cfg.idField = some vs)
    (hve : getVal vals "redcap_event_name" = some ve)
    (hfilt : (src_filter (sort_el_coord d.infoEls)).length = 1)
    (hmis : vs ≠ .s d.subj ∨ ve ≠ .s d.event ∨
      pdf_source (sort_el_coord d.infoEls) ≠ d.srcChar) :
    ∃ e : DocErr,
      identity_check cfg d vals (sort_el_coord d.infoEls) = .ok (some e) ∧
      pullStep cfg d = .ok (none, some e) ∧
      (∀ rs es, pull cfg rest = .ok (rs, es) →
        pull cfg (d :: rest) = .ok (rs, e :: es)) := by
  have main : ∃ e : DocErr,
      identity_check cfg d vals (sort_el_coord d.infoEls) = .ok (some e) := by
    by_cases h1 : vs = RVal.s d.subj
    · by_cases h2 : ve = RVal.s d.event
      · have h3 : pdf_source (sort_el_coord d.infoEls) ≠ d.srcChar := by
          rcases hmis with h | h | h
          · exact absurd h1 h
          · exact absurd h2 h
          · exact h
        refine ⟨DocErr.srcMismatch, ?_⟩
        simp [identity_check, hvs, hve, except_bind_ok, hfilt, h1, h2, h3, except_pure]
      · refine ⟨DocErr.eventMismatch, ?_⟩
        simp [identity_check, hvs, hve, except_bind_ok, hfilt, h1, h2, except_pure]
    · refine ⟨DocErr.subjMismatch, ?_⟩
      simp [identity_check, hvs, hve, except_bind_ok, hfilt, h1, except_pure]
  obtain ⟨e, hid⟩ := main
  have hstep := pullStep_identity_err cfg d vals e hpar hid
  refine ⟨e, hid, hstep, fun rs es hrest => ?_⟩
  simpa using pull_cons_step cfg d rest none (some e) rs es hstep hrest

/-- Witness for C6: the `doc6` report is offered under subject 999 while the
document carries 1001-style tag 123; one subject-mismatch error is recorded,
no record is emitted, and the batch continues to pull `doc3`. -/
theorem C6_identity_mismatch_witness :
    pull cfg3 [doc6, doc3] = .ok ([rec3], [DocErr.subjMismatch]) := by
  obtain ⟨e, hid, hstep, hcont⟩ := C6_identity_mismatch cfg3 doc6
    [("record_id", .s "123"), ("redcap_event_name", .s "year_1_arm_1"),
     ("int_date", .s "1/2/2020"), ("dep_f", .n 1)]
    (.s "123") (.s "year_1_arm_1") [doc3]
    (by decide) (by decide) (by decide) (by decide) (by decide)
  have he : e = DocErr.subjMismatch := by
    have : identity_check cfg3 doc6
      [("record_id", .s "123"), ("redcap_event_name", .s "year_1_arm_1"),
       ("int_date", .s "1/2/2020"), ("dep_f", .n 1)]
      (sort_el_coord doc6.infoEls) = .ok (some DocErr.subjMismatch) := by decide
    have h2 := hid.symm.trans this
    simpa using h2
  subst he
  exact hcont [rec3] [] (by decide)

/-- Claim C5: if a document that has passed parsing, identity verification and
the completion block carries a non-identity field outside the known schema
field names, `pull` raises the uncaught schema-integrity `ValueError`: the
whole batch aborts with that error — the records accumulated from any earlier
documents are discarded rather than returned for pushing, and the document is
not merely skipped. -/
theorem C5_schema_abort (cfg : PullCfg) (d : DocInput) (vals vals2 : RMap)
    (pre rest : List DocInput)
    (hpar : parse_data cfg.idField cfg.template (sort_el_coord d.diagEls)
      (sort_el_coord d.infoEls) = .ok vals)
    (hid : identity_check cfg d vals (sort_el_coord d.infoEls) = .ok none)
    (hcomp : completion_stage cfg d vals = .ok (.proceed vals2))
    (hbad : bad_fields cfg vals2 ≠ [])
    (hok : ∀ p ∈ pre, ∃ out, pullStep cfg p = .ok out) :
    pullStep cfg d = .error (.schemaErr (bad_fields cfg vals2)) ∧
    pull cfg (pre ++ d :: rest) = .error (.schemaErr (bad_fields cfg vals2)) := by
  have hstep : pullStep cfg d = .error (.schemaErr (bad_fields cfg vals2)) := by
    simp [pullStep, hpar, except_bind_ok, hid, hcomp, hbad, except_throw]
  exact ⟨hstep, pull_append_fatal cfg pre d rest _ hok hstep⟩

/-- Witness for C5: under a schema that does not know `dep_f`, the batch
consisting of a previously error-collected document followed by `doc3` aborts
with the schema error instead of returning the collected results. -/
theorem C5_schema_abort_witness :
    pullStep cfg5 doc3 = .error (.schemaErr ["dep_f"]) ∧
    pull cfg5 [docMismatch, doc3] = .error (.schemaErr ["dep_f"]) := by
  have h := C5_schema_abort cfg5 doc3
    [("record_id", .s "123"), ("redcap_event_name", .s "year_1_arm_1"),
     ("int_date", .s "1/2/2020"), ("dep_f", .n 1)]
    [("record_id", .s "123"), ("redcap_event_name", .s "year_1_arm_1"),
     ("int_date", .s "1/2/2020"), ("dep_f", .n 1), ("info_complete", .s "1")]
    [docMismatch] []
    (by decide) (by decide) (by decide) (by decide)
    (fun p hp => by
      simp at hp
      subst hp
      exact ⟨(none, some (.parseErr .layoutMismatch)), by decide⟩)
  have hb : bad_fields cfg5
      [("record_id", .s "123"), ("redcap_event_name", .s "year_1_arm_1"),
       ("int_date", .s "1/2/2020"), ("dep_f", .n 1), ("info_complete", .s "1")] =
      ["dep_f"] := by decide
  rw [hb] at h
  simpa using h

/-- Claim C3 (amended): the completion check of `pull` is applied only to the
*first* non-identity field of the document's mapping. If that field's form is
reported finalized (and `skip_complete` is set), the entire document is
skipped — nothing at all is emitted; otherwise the companion completion-flag
field of that first field is marked and the document's outcome is completely
determined without consulting the is-complete predicate on any other field, so
a later finalized field is re-emitted. -/
theorem C3_completion_first_field (cfg : PullCfg) (d : DocInput) (vals : RMap)
    (k : String)
    (hpar : parse_data cfg.idField cfg.template (sort_el_coord d.diagEls)
      (sort_el_coord d.infoEls) = .ok vals)
    (hid : identity_check cfg d vals (sort_el_coord d.infoEls) = .ok none)
    (hk : firstNonIdentity cfg vals = some k)
    (hsc : cfg.skipComplete = true) :
    (is_complete cfg d.subj d.event k = .ok true →
      pullStep cfg d = .ok (none, none)) ∧
    (∀ cf, is_complete cfg d.subj d.event k = .ok false →
      completed_field cfg k = some cf →
      pullStep cfg d =
        (if bad_fields cfg (setVal vals cf cfg.uploadedStatus) ≠ [] then
          .error (.schemaErr (bad_fields cfg (setVal vals cf cfg.uploadedStatus)))
        else if (setVal vals cf cfg.uploadedStatus).isEmpty then .ok (none, none)
        else .ok (some (setVal vals cf cfg.uploadedStatus), none))) := by
  constructor
  · intro hic
    have hcomp : completion_stage cfg d vals = .ok .skip := by
      simp [completion_stage, hk, hsc, hic]
    simp [pullStep, hpar, except_bind_ok, hid, hcomp, except_pure]
  · intro cf hic hcf
    have hcomp : completion_stage cfg d vals =
        .ok (.proceed (setVal vals cf cfg.uploadedStatus)) := by
      simp [completion_stage, hk, hsc, hic, hcf]
    by_cases hb : bad_fields cfg (setVal vals cf cfg.uploadedStatus) = []
    · by_cases he : (setVal vals cf cfg.uploadedStatus).isEmpty = true
      · simp [pullStep, hpar, except_bind_ok, hid, hcomp, except_pure, hb, he]
        exact List.isEmpty_iff.mp he
      · simp [pullStep, hpar, except_bind_ok, hid, hcomp, except_pure, hb, he]
        exact fun hx => he (List.isEmpty_iff.mpr hx)
    · simp [pullStep, hpar, except_bind_ok, hid, hcomp, except_throw, hb]

/-- Counterexample for C3 as stated: under `cfg3` the form of `dep_f` is
already finalized for subject 123 / year 1 (`is_complete` returns true), yet
pulling `doc3` re-emits `dep_f` in its record, because the completion loop
stopped at the earlier field `int_date`. -/
theorem C3_counterexample :
    cfg3.skipComplete = true ∧
    is_complete cfg3 doc3.subj doc3.event "dep_f" = .ok true ∧
    pull cfg3 [doc3] = .ok ([rec3], []) ∧
    getVal rec3 "dep_f" = some (.n 1) := by decide

/-- Witness for the amended C3: when the first non-identity field's form is the
finalized one, the whole document is skipped; under `cfg3` (first field not
finalized) the document proceeds and emits `rec3`. -/
theorem C3_completion_first_field_witness :
    pullStep cfgSkip doc3 = .ok (none, none) ∧
    pullStep cfg3 doc3 = .ok (some rec3, none) := by
  constructor
  · exact (C3_completion_first_field cfgSkip doc3
      [("record_id", .s "123"), ("redcap_event_name", .s "year_1_arm_1"),
       ("int_date", .s "1/2/2020"), ("dep_f", .n 1)]
      "int_date" (by decide) (by decide) (by decide) rfl).1 (by decide)
  · have h := (C3_completion_first_field cfg3 doc3
      [("record_id", .s "123"), ("redcap_event_name", .s "year_1_arm_1"),
       ("int_date", .s "1/2/2020"), ("dep_f", .n 1)]
      "int_date" (by decide) (by decide) (by decide) rfl).2 "info_complete"
      (by decide) (by decide)
    rw [h]
    decide

/-- Claim C4 (amended): a fragment whose resolved column role is outside the
known role set makes the dispatcher raise the invalid-state `ValueError` — but
that error is of the class `pull` catches around `parse_data`, so it is
document-level: a parse failure of any caught class (including this one)
records one error and the batch continues with the remaining documents; it
does not terminate the run. -/
theorem C4_unknown_role (xs : List String) (diag_xs : List Int) (tmpl : List TRow)
    (st : DState) (row : Item)
    (hrole : roleFor xs diag_xs row.x0 ∉ knownRoles) :
    dispatch_row xs diag_xs tmpl st row =
      .error (.invalidState (roleFor xs diag_xs row.x0)) ∧
    caughtByPull (.invalidState (roleFor xs diag_xs row.x0)) = true ∧
    (∀ (cfg : PullCfg) (d : DocInput) (rest : List DocInput) rs es (e : PErr),
      parse_data cfg.idField cfg.template (sort_el_coord d.diagEls)
        (sort_el_coord d.infoEls) = .error e →
      caughtByPull e = true →
      pull cfg rest = .ok (rs, es) →
      pull cfg (d :: rest) = .ok (rs, DocErr.parseErr e :: es)) := by
  simp only [knownRoles, List.mem_cons, List.mem_singleton, not_or] at hrole
  obtain ⟨h1, h2, h3, h4, h5, h6, h7, h8, h9⟩ := hrole
  refine ⟨?_, rfl, ?_⟩
  · simp [dispatch_row, h1, h2, h3, h4, h5, h6, h7, h8, h9, except_throw]
  · intro cfg d rest rs es e hp hc hrest
    have hstep := pullStep_parse_err cfg d e hp hc
    simpa using pull_cons_step cfg d rest none (some (DocErr.parseErr e)) rs es hstep hrest

/-- Counterexample for C4 as stated: the invalid-state error raised for an
unknown role (here `bogus_x`) is an error class that `pull` catches
(`caughtByPull` is true for it), and a caught `parse_data` error does not
terminate the run — a two-document batch whose first document fails parsing
still pulls the second document's record. -/
theorem C4_counterexample :
    dispatch_row ["bogus_x"] [20] tmpl3 ⟨{}, [], []⟩ ⟨0, 20, 90, "zz"⟩ =
      .error (.invalidState "bogus_x") ∧
    caughtByPull (.invalidState "bogus_x") = true ∧
    pull cfg3 [docMismatch, doc3] =
      .ok ([rec3], [DocErr.parseErr .layoutMismatch]) := by decide

/-- Witness for the amended C4: a fragment resolved to the unknown role
`bogus_x` makes the dispatcher fail with the invalid-state error, and a
document whose parse fails with a caught error only contributes a
document-level error while the batch continues. -/
theorem C4_unknown_role_witness :
    dispatch_row ["bogus_x"] [20] tmpl3 ⟨{}, [], []⟩ ⟨0, 25, 90, "zz"⟩ =
      .error (.invalidState "bogus_x") ∧
    pull cfg3 [docShort] = .ok ([], [DocErr.parseErr .infoElsCount]) := by
  have h := C4_unknown_role ["bogus_x"] [20] tmpl3 ⟨{}, [], []⟩ ⟨0, 25, 90, "zz"⟩
    (by decide)
  refine ⟨by simpa using h.1, ?_⟩
  exact h.2.2 cfg3 docShort [] [] [] .infoElsCount (by decide) rfl rfl

/-- Claim C7 (amended): provided a suicide-risk accumulator field is opened
exactly once during the dispatch pass (the recorded suicide-field list has no
duplicates), its final value after `finalize_suicide` is exactly its
accumulated labeled-line list joined with the separator `" | "`; and each
description / C-CASA code / patient-comments fragment appends its labeled line
at the *end* of the open accumulator, so the join preserves the order in which
the contributing fragments were encountered. (Re-opening a field resets its
accumulator and makes the join run twice, as the counterexample shows.) -/
theorem C7_accumulator_join (vals : RMap) (sfs : List String) (sf : String)
    (l : List String)
    (hnd : sfs.Nodup) (hmem : sf ∈ sfs)
    (hall : ∀ f ∈ sfs, ∃ lf, getVal vals f = some (.lst lf))
    (hsf : getVal vals sf = some (.lst l)) :
    (∃ m, finalize_suicide vals sfs = .ok m ∧
      getVal m sf = some (.s (String.intercalate " | " l))) ∧
    (∀ txt cv v lf, cv.suicide_field = some sf → txt ≠ "Description" →
      getVal v sf = some (.lst lf) →
      parse_suicide_desc_x txt cv v = .ok (setVal v sf (.lst (lf ++
        ["Description: " ++
          String.mk (txt.data.map (fun c => if c = '\n' then ' ' else c))])))) ∧
    (∀ txt cv v lf, cv.suicide_field = some sf → containsCasa txt = false →
      getVal v sf = some (.lst lf) →
      parse_suicide_casa_x txt cv v = .ok (setVal v sf (.lst (lf ++
        ["C-CASA Code: " ++
          String.mk (txt.data.map (fun c => if c = '\n' then ' ' else c))])))) ∧
    (∀ txt cv v lf, cv.suicide_field = some sf → containsPatientComments txt = false →
      getVal v sf = some (.lst lf) →
      parse_suicide_comments_x txt cv v = .ok (setVal v sf (.lst (lf ++
        ["Patient Comments: " ++
          String.mk (txt.data.map (fun c => if c = '\n' then ' ' else c))])))) := by
  refine ⟨finalize_getVal sfs vals sf l hnd hmem hall hsf, ?_, ?_, ?_⟩
  · intro txt cv v lf hcv htxt hv
    simp [parse_suicide_desc_x, htxt, hcv, hv, except_pure, except_bind_ok]
  · intro txt cv v lf hcv htxt hv
    simp [parse_suicide_casa_x, htxt, hcv, hv, except_pure, except_bind_ok]
  · intro txt cv v lf hcv htxt hv
    simp [parse_suicide_comments_x, htxt, hcv, hv, except_pure, except_bind_ok]

/-- Counterexample for C7 as stated: in `diag7` the risk-item header `AttemptX`
opens the same field `sf` twice; the final value of `sf` is neither the join of
all encountered labeled lines nor even the join of the lines accumulated after
the reset (the second pass of the join runs over the characters of an already
joined string). -/
theorem C7_counterexample :
    (parsedVal "record_id" tmpl7 diag7 info11 "sf").isSome = true ∧
    parsedVal "record_id" tmpl7 diag7 info11 "sf" ≠
      some (.s (String.intercalate " | "
        ["Description: d1", "Description: d2", "C-CASA Code: code1",
         "Patient Comments: comm1"])) ∧
    parsedVal "record_id" tmpl7 diag7 info11 "sf" ≠
      some (.s (String.intercalate " | "
        ["Description: d2", "C-CASA Code: code1", "Patient Comments: comm1"])) := by
  decide

/-- Witness for the amended C7: a singleton accumulator list joins to its line,
and a description fragment appends its labeled line at the end. -/
theorem C7_accumulator_join_witness :
    (∃ m, finalize_suicide [("sf", .lst ["Description: d1"])] ["sf"] = .ok m ∧
      getVal m "sf" = some (.s (String.intercalate " | " ["Description: d1"]))) ∧
    parse_suicide_desc_x "d2" ⟨none, none, some "sf"⟩
        [("sf", .lst ["Description: d1"])] =
      .ok (setVal [("sf", .lst ["Description: d1"])] "sf"
        (.lst (["Description: d1"] ++
          ["Description: " ++
            String.mk ("d2".data.map (fun c => if c = '\n' then ' ' else c))]))) := by
  have h := C7_accumulator_join [("sf", .lst ["Description: d1"])] ["sf"] "sf"
    ["Description: d1"] (by decide) (by decide)
    (fun f hf => by
      simp at hf
      subst hf
      exact ⟨["Description: d1"], by decide⟩)
    (by decide)
  exact ⟨h.1, h.2.1 "d2" ⟨none, none, some "sf"⟩ _ ["Description: d1"] rfl
    (by decide) (by decide)⟩

theorem sleep_time_isSome (cv : CurrVars) (b : Bool) (o : Option String)
    (h : sleep_time cv b = .ok o) : o.isSome = b := by
  unfold sleep_time at h
  by_cases hb : b = true
  · subst hb
    simp only [if_true] at h
    cases htime : cv.time with
    | some ct =>
      rw [htime] at h
      have h3 : (Except.ok (some ct) : Except PErr (Option String)) = Except.ok o := h
      rw [← Except.ok.inj h3]
      rfl
    | none =>
      rw [htime] at h
      have h3 : (Except.error PErr.timeKeyErr : Except PErr (Option String)) =
        Except.ok o := h
      cases h3
  · simp only [Bool.not_eq_true] at hb
    subst hb
    simp only [Bool.false_eq_true, if_false] at h
    have h3 : (Except.ok (none : Option String) : Except PErr (Option String)) =
      Except.ok o := h
    rw [← Except.ok.inj h3]
    rfl

theorem map_col_ok_shape (tmpl : List TRow) (ind : TRow → Bool) (vals : RMap)
    (mt : Bool) (txt : String) (vals2 : RMap)
    (h : map_col tmpl ind vals mt txt = .ok vals2) :
    ∃ col, vals2 = setVal vals col (if mt then RVal.s txt else RVal.n 1) := by
  unfold map_col at h
  split at h
  · cases h
  · rename_i r heq
    split at h
    · split at h
      · exact ⟨r.varName, ((Except.ok.inj h).symm)⟩
      · cases h
    · exact ⟨r.varName, ((Except.ok.inj h).symm)⟩

/-- Claim C9 (amended): whenever the symptom handler succeeds, either it
silently skipped (mapping unchanged, for the enumerated skip special cases) or
it wrote exactly one field, whose value is the presence flag `1` — except in
the single sleep special case, where the value written is the literal raw text
of the symptom fragment *itself* (not the next fragment's text). -/
theorem C9_symptom_value (txt : String) (cv : CurrVars) (vals : RMap)
    (tmpl : List TRow) (vals2 : RMap)
    (h : parse_symp_x txt cv vals tmpl = .ok vals2) :
    vals2 = vals ∨
    ∃ col, vals2 = setVal vals col
      (if strContains false
          "Patient reported trouble falling asleep or staying asleep" (sympOf txt)
        then RVal.s txt else RVal.n 1) := by
  unfold parse_symp_x at h
  split at h
  · cases h
  · split at h
    · cases h
    · rename_i time_str
      split at h
      · cases h
      · rename_i sleepTime hst
        split at h
        · exact Or.inl (Except.ok.inj h).symm
        · split at h
          · cases h
          · rename_i adjCase hadj
            split at h
            · exact Or.inl (Except.ok.inj h).symm
            · split at h
              · cases h
              · rename_i ind5 hdm
                split at h
                · exact Or.inl (Except.ok.inj h).symm
                · split at h
                  · cases h
                  · obtain ⟨col, hcol⟩ := map_col_ok_shape _ _ _ _ _ _ h
                    right
                    refine ⟨col, ?_⟩
                    rw [hcol, sleep_time_isSome cv _ sleepTime hst]

/-- Counterexample for C9 as stated: in `diag9` the sleep-case symptom fragment
is followed by a fragment reading `Hypersexuality`, yet the emitted value for
the matched sleep field is the sleep fragment's own literal text — not `1` and
not the next fragment's text. -/
theorem C9_counterexample :
    parsedVal "record_id" tmpl9 diag9 info11 "sleep_f" =
      some (.s "Patient reported trouble falling asleep or staying asleep") ∧
    ((sort_el_coord diag9).getD 4 ⟨0, 0, 0, ""⟩).txt = "Hypersexuality" ∧
    RVal.s "Patient reported trouble falling asleep or staying asleep" ≠
      RVal.s "Hypersexuality" ∧
    RVal.s "Patient reported trouble falling asleep or staying asleep" ≠
      RVal.n 1 := by decide

/-- Witness for the amended C9: the sleep symptom fragment writes its own raw
text into the matched sleep field. -/
theorem C9_symptom_value_witness :
    ([("sleep_f",
        RVal.s "Patient reported trouble falling asleep or staying asleep")] :
      RMap) = ([] : RMap) ∨
    ∃ col,
      ([("sleep_f",
          RVal.s "Patient reported trouble falling asleep or staying asleep")] :
        RMap) = setVal [] col
        (if strContains false
            "Patient reported trouble falling asleep or staying asleep"
            (sympOf "Patient reported trouble falling asleep or staying asleep")
          then RVal.s "Patient reported trouble falling asleep or staying asleep"
          else RVal.n 1) :=
  C9_symptom_value "Patient reported trouble falling asleep or staying asleep"
    ⟨some "Current", some "Dep", none⟩ [] tmpl9
    [("sleep_f", RVal.s "Patient reported trouble falling asleep or staying asleep")]
    (by decide)
